import Mathlib

/-
Verification of the TRF stokvel ledger against its source.

The repository ships two competing implementations of the business logic:

* the dual-store variant, `src/unnamed/part_006` (a Database object backed by
  Firestore records plus a Realtime-DB aggregate cache), together with the
  attempts-tracking SMS module `src/unnamed/part_001`;
* the single-store variant, `src/js/submit-pop.js` (a Database object backed by
  Firestore only), together with the legacy SMS module `src/js/sms.js`.

Both are embedded below, in namespaces `Part006`, `SubmitPop`, `SMSNew`
(part_001) and `SMSOld` (sms.js).  The embedding is sequential: every
operation is a pure function from a database state to an `Except` result, and
JavaScript thrown errors are `Except.error` (an error leaves the state
untouched, matching a thrown exception before/through a failed Firestore
batch).  Timestamps, audit-log payloads, SMS text, proof-image blobs and the
Realtime-DB mirror writes are not modelled: no claim under scrutiny mentions
them, and the mirror writes duplicate the Firestore numbers they mirror.
Firestore auto-ids are modelled as consecutive naturals.

JavaScript semantics encoded explicitly where it matters:

* a comparison with a missing configuration key is false
  (`x < undefined` and `x > undefined` are both false in JS) - the shipped
  APP_SETTINGS objects (both variants bundled in part_006) define
  minimumDeposit / lateFineAmount / paymentDueDay, while part_006 reads the
  keys minimumContribution / lateFee / paymentDeadlineDay, which exist only in
  the unused DB_SETTINGS fallback; such reads yield undefined, so the model
  keeps those settings as `Option Int`;
* `x || 0` on a number field is the identity except on NaN/undefined
  (modelled with `Option.getD 0` where the field can be absent);
* Firestore `FieldValue.increment` adds to the stored number; a batch
  `update` of a nonexistent document makes the whole batch fail with no write.
-/

set_option maxRecDepth 4000

set_option autoImplicit false

/-! ## Small JavaScript string helpers -/

/-- JS `phone.replace(/[\s-]/g, "")`: drop whitespace and dashes. -/
def stripSpacesDashes (s : String) : String :=
  String.mk (s.data.filter (fun c => !(c.isWhitespace || c = '-')))

/-- JS `s.replace(/\D/g, "")`: keep only decimal digits. -/
def keepDigits (s : String) : String :=
  String.mk (s.data.filter Char.isDigit)

/-- Parse a nonempty all-digit char list as a base-10 numeral. -/
def digitsToNat (l : List Char) : Nat :=
  l.foldl (fun acc c => acc * 10 + (c.toNat - '0'.toNat)) 0

/-! ## SHA-256 (the digest used by hashPassword in part_006)

A direct implementation of FIPS 180-4 over `Nat` with explicit reduction
modulo 2^32, as used by `crypto.subtle.digest("SHA-256", bytes)`. -/

namespace Sha256

def M32 : Nat := 4294967296

def rotr (n x : Nat) : Nat :=
  ((x >>> n) ||| (x <<< (32 - n))) % M32

def shr (n x : Nat) : Nat := x >>> n

/-- Bitwise complement within 32 bits. -/
def not32 (x : Nat) : Nat := Nat.xor x (M32 - 1)

def ch (x y z : Nat) : Nat := Nat.xor (Nat.land x y) (Nat.land (not32 x) z)

def maj (x y z : Nat) : Nat :=
  Nat.xor (Nat.xor (Nat.land x y) (Nat.land x z)) (Nat.land y z)

def bigS0 (x : Nat) : Nat := Nat.xor (Nat.xor (rotr 2 x) (rotr 13 x)) (rotr 22 x)

def bigS1 (x : Nat) : Nat := Nat.xor (Nat.xor (rotr 6 x) (rotr 11 x)) (rotr 25 x)

def smallS0 (x : Nat) : Nat := Nat.xor (Nat.xor (rotr 7 x) (rotr 18 x)) (shr 3 x)

def smallS1 (x : Nat) : Nat := Nat.xor (Nat.xor (rotr 17 x) (rotr 19 x)) (shr 10 x)

def K : List Nat :=
  [1116352408, 1899447441, 3049323471, 3921009573, 961987163, 1508970993,
   2453635748, 2870763221, 3624381080, 310598401, 607225278, 1426881987,
   1925078388, 2162078206, 2614888103, 3248222580, 3835390401, 4022224774,
   264347078, 604807628, 770255983, 1249150122, 1555081692, 1996064986,
   2554220882, 2821834349, 2952996808, 3210313671, 3336571891, 3584528711,
   113926993, 338241895, 666307205, 773529912, 1294757372, 1396182291,
   1695183700, 1986661051, 2177026350, 2456956037, 2730485921, 2820302411,
   3259730800, 3345764771, 3516065817, 3600352804, 4094571909, 275423344,
   430227734, 506948616, 659060556, 883997877, 958139571, 1322822218,
   1537002063, 1747873779, 1955562222, 2024104815, 2227730452, 2361852424,
   2428436474, 2756734187, 3204031479, 3329325298]

def H0 : List Nat :=
  [1779033703, 3144134277, 1013904242, 2773480762,
   1359893119, 2600822924, 528734635, 1541459225]

/-- Big-endian bytes of `n`, `k` bytes wide. -/
def beBytes (k n : Nat) : List Nat :=
  match k with
  | 0 => []
  | k + 1 => (n >>> (8 * k)) % 256 :: beBytes k n

/-- Pad a byte message per FIPS 180-4: append 0x80, zeros, 64-bit bit length. -/
def pad (msg : List Nat) : List Nat :=
  let len := msg.length
  let zeros := (64 - (len + 9) % 64) % 64
  msg ++ [0x80] ++ List.replicate zeros 0 ++ beBytes 8 (8 * len)

/-- Split into 64-byte blocks. -/
def blocks : List Nat → List (List Nat)
  | [] => []
  | a :: t => (a :: t).take 64 :: blocks ((a :: t).drop 64)
termination_by l => l.length
decreasing_by simp [List.length_drop]; omega

/-- Combine four bytes into a 32-bit big-endian word. -/
def word (b0 b1 b2 b3 : Nat) : Nat := ((b0 * 256 + b1) * 256 + b2) * 256 + b3

/-- The sixteen 32-bit words of one block. -/
def toWords : List Nat → List Nat
  | b0 :: b1 :: b2 :: b3 :: rest => word b0 b1 b2 b3 :: toWords rest
  | _ => []

/-- Extend 16 words to the 64-entry message schedule. -/
def schedule (w : List Nat) : Nat → List Nat
  | 0 => w
  | n + 1 =>
    let w := schedule w n
    let t := (smallS1 (w.getD (w.length - 2) 0) + w.getD (w.length - 7) 0
              + smallS0 (w.getD (w.length - 15) 0) + w.getD (w.length - 16) 0) % M32
    w ++ [t]

/-- One round of the compression function on the eight working variables. -/
def round (st : List Nat) (kw : Nat) : List Nat :=
  match st with
  | [a, b, c, d, e, f, g, h] =>
    let t1 := (h + bigS1 e + ch e f g + kw) % M32
    let t2 := (bigS0 a + maj a b c) % M32
    [(t1 + t2) % M32, a, b, c, (d + t1) % M32, e, f, g]
  | st => st

/-- Compress one 64-byte block into the hash state. -/
def compress (h : List Nat) (block : List Nat) : List Nat :=
  let w := schedule (toWords block) 48
  let kw := K.zipWith (fun k wi => (k + wi) % M32) w
  let st := kw.foldl round h
  (h.zipWith (fun x y => (x + y) % M32) st)

/-- SHA-256 digest: 32 bytes from a byte message. -/
def digest (msg : List Nat) : List Nat :=
  let h := (blocks (pad msg)).foldl compress H0
  h.foldr (fun w acc => beBytes 4 w ++ acc) []

def hexDigit (n : Nat) : Char :=
  if n < 10 then Char.ofNat ('0'.toNat + n) else Char.ofNat ('a'.toNat + (n - 10))

/-- Lower-case hex of one byte, two digits (the JS padStart(2, "0")). -/
def byteHex (b : Nat) : List Char := [hexDigit (b / 16 % 16), hexDigit (b % 16)]

def toHex (bytes : List Nat) : String := String.mk (bytes.foldr (fun b acc => byteHex b ++ acc) [])

/-- UTF-8 bytes of one character (what TextEncoder produces). -/
def utf8Char (c : Char) : List Nat :=
  let n := c.toNat
  if n < 0x80 then [n]
  else if n < 0x800 then [0xc0 + n / 64, 0x80 + n % 64]
  else if n < 0x10000 then [0xe0 + n / 4096, 0x80 + n / 64 % 64, 0x80 + n % 64]
  else [0xf0 + n / 262144, 0x80 + n / 4096 % 64, 0x80 + n / 64 % 64, 0x80 + n % 64]

/-- JS `new TextEncoder().encode(s)`. -/
def utf8Encode (s : String) : List Nat := s.data.flatMap utf8Char

/-- Hex SHA-256 of the UTF-8 bytes of a string. -/
def hexOfString (s : String) : String := toHex (digest (utf8Encode s))

end Sha256

/-! ## Common submission lifecycle state -/

inductive Status
  | pending
  | verified
  | rejected
deriving DecidableEq, Repr

/-- JS `a < b` where `b` may be a missing configuration key:
comparison with undefined is false. -/
def jsLtOpt (a : Int) : Option Int → Bool
  | some b => a < b
  | none => false

/-- JS `a > b`, `b` possibly undefined. -/
def jsGtOpt (a : Int) : Option Int → Bool
  | some b => a > b
  | none => false

/-! ## Shared keyed-document helpers (Firestore collections as assoc lists) -/

/-- interestPool doc set-with-merge + FieldValue.increment:
created lazily with the incremented value, otherwise added to. -/
def poolAdd : List (String × Int) → String → Int → List (String × Int)
  | [], key, amt => [(key, amt)]
  | (k, v) :: rest, key, amt =>
    if k = key then (k, v + amt) :: rest else (k, v) :: poolAdd rest key amt

/-- Firestore keyed-document read. -/
def assocGet {β : Type} : List (String × β) → String → Option β
  | [], _ => none
  | (k0, r0) :: rest, k => if k0 = k then some r0 else assocGet rest k

/-- Firestore doc set: overwrite the record at the key, or create it. -/
def assocSet {β : Type} : List (String × β) → String → β → List (String × β)
  | [], k, r => [(k, r)]
  | (k0, r0) :: rest, k, r =>
    if k0 = k then (k, r) :: rest else (k0, r0) :: assocSet rest k r

/-- Firestore doc delete. -/
def assocDel {β : Type} (st : List (String × β)) (k : String) : List (String × β) :=
  st.filter (fun p => p.1 ≠ k)

/-! ## The dual-store Database (src/unnamed/part_006)

Sequential embedding of the Firestore side of the dual architecture.  The
Realtime-DB mirror writes repeat the same numbers and are not modelled.
Document ids are consecutive naturals handed out by per-collection counters. -/

namespace Part006

/-- The configuration keys this variant reads from APP_SETTINGS.
paymentDeadlineDay, lateFee and minimumContribution are read by submitPOP but
are defined by neither bundled firebase-config APP_SETTINGS object (those
define paymentDueDay / lateFineAmount / minimumDeposit instead; the matching
DB_SETTINGS fallback at the top of part_006 is never referenced again), so
with the shipped configuration these three reads yield undefined; they are
kept as `Option Int` and read with the JS undefined-comparison helpers.
interestEligibilityMin is defined (10000) by both config objects. -/
structure Settings where
  paymentDeadlineDay : Option Int
  lateFee : Option Int
  minimumContribution : Option Int
  interestEligibilityMin : Int
deriving DecidableEq, Repr

/-- The settings as shipped in the repository (see comment on Settings). -/
def repoSettings : Settings :=
  { paymentDeadlineDay := none, lateFee := none, minimumContribution := none,
    interestEligibilityMin := 10000 }

structure Member where
  id : Nat
  phone : String
  idNumber : String
  passwordHash : String
  status : String
  totalSavings : Int
  totalFines : Int
  submissionCount : Int
  verifiedCount : Int
  pendingCount : Int
  rejectedCount : Int
  qualifiesForInterest : Bool
  lastPaymentMonth : Option String
  consecutiveMonths : Int
  skippedMonths : Int
deriving DecidableEq, Repr

structure Submission where
  id : Nat
  memberId : Option Nat
  name : String
  phone : String
  amount : Int
  fineAmount : Int
  isLate : Bool
  paymentMonth : String
  paymentDay : Int
  status : Status
  rejectionReason : Option String
deriving DecidableEq, Repr

structure DB where
  members : List Member
  submissions : List Submission
  pool : List (String × Int)
  nextMemberId : Nat
  nextSubmissionId : Nat
deriving DecidableEq, Repr

def DB.empty : DB :=
  { members := [], submissions := [], pool := [], nextMemberId := 0, nextSubmissionId := 0 }

/-- members.where(phone == normalized).limit(1). -/
def getMemberByPhone (db : DB) (phone : String) : Option Member :=
  db.members.find? (fun m => m.phone = stripSpacesDashes phone)

def getMemberByIdNumber (db : DB) (idNumber : String) : Option Member :=
  db.members.find? (fun m => m.idNumber = idNumber)

def getMember (db : DB) (memberId : Nat) : Option Member :=
  db.members.find? (fun m => m.id = memberId)

def getSubmission (db : DB) (submissionId : Nat) : Option Submission :=
  db.submissions.find? (fun s => s.id = submissionId)

/-- Pointwise update of the member document with the given id. -/
def updateMemberRec (members : List Member) (memberId : Nat) (f : Member → Member) :
    List Member :=
  members.map (fun m => if m.id = memberId then f m else m)

def updateSubRec (subs : List Submission) (submissionId : Nat) (f : Submission → Submission) :
    List Submission :=
  subs.map (fun s => if s.id = submissionId then f s else s)

/-- SHA-256 hex of the UTF-8 password bytes: this variant digests the
password alone (no salt, no per-member input). -/
def hashPassword (password : String) : String := Sha256.hexOfString password

structure RegData where
  name : String
  phone : String
  idNumber : String
  password : String
deriving DecidableEq, Repr

/-- registerMember: uniqueness checks then a zero-aggregate member document. -/
def registerMember (db : DB) (d : RegData) : Except String (DB × Nat) :=
  let normalizedPhone := stripSpacesDashes d.phone
  if (getMemberByPhone db normalizedPhone).isSome then
    .error "This phone number is already registered."
  else if (getMemberByIdNumber db d.idNumber).isSome then
    .error "This ID number is already registered."
  else
    let m : Member :=
      { id := db.nextMemberId, phone := normalizedPhone, idNumber := d.idNumber,
        passwordHash := hashPassword d.password, status := "active",
        totalSavings := 0, totalFines := 0, submissionCount := 0, verifiedCount := 0,
        pendingCount := 0, rejectedCount := 0, qualifiesForInterest := false,
        lastPaymentMonth := none, consecutiveMonths := 0, skippedMonths := 0 }
    .ok ({ db with members := db.members ++ [m], nextMemberId := db.nextMemberId + 1 },
         db.nextMemberId)

structure SubmitData where
  name : String
  phone : String
  /-- parseFloat(submissionData.amount); `none` models NaN. -/
  amount : Option Int
  /-- paymentDate.getDate(), the only component of the date the code reads. -/
  paymentDay : Int
  paymentMonth : String
deriving DecidableEq, Repr

/-- The member-count bump submitPOP performs on the linked member. -/
def submitBump (x : Member) : Member :=
  { x with submissionCount := x.submissionCount + 1, pendingCount := x.pendingCount + 1 }

/-- submitPOP of part_006: member link by phone, late-fee computation against
the (undefined with shipped settings) deadline key, NaN/minimum guard, then a
pending submission plus submissionCount/pendingCount increments on the linked
member.  When isLate is true and lateFee is undefined the JS would store
undefined and Firestore would reject the write; with the shipped settings
isLate is always false, so the `getD 0` default is never exercised there. -/
def submitPOP (s : Settings) (db : DB) (d : SubmitData) : Except String (DB × Nat) :=
  let normalizedPhone := stripSpacesDashes d.phone
  let member := getMemberByPhone db normalizedPhone
  let isLate := jsGtOpt d.paymentDay s.paymentDeadlineDay
  let fineAmount := if isLate then s.lateFee.getD 0 else 0
  match d.amount with
  | none => .error "Minimum contribution not met"
  | some amount =>
    if jsLtOpt amount s.minimumContribution then .error "Minimum contribution not met"
    else
      let sub : Submission :=
        { id := db.nextSubmissionId, memberId := member.map (fun m => m.id),
          name := d.name, phone := normalizedPhone, amount := amount,
          fineAmount := fineAmount, isLate := isLate, paymentMonth := d.paymentMonth,
          paymentDay := d.paymentDay, status := .pending, rejectionReason := none }
      let members :=
        match member with
        | some m => updateMemberRec db.members m.id submitBump
        | none => db.members
      .ok ({ db with members := members, submissions := db.submissions ++ [sub],
                     nextSubmissionId := db.nextSubmissionId + 1 },
           db.nextSubmissionId)

/-- First run of four consecutive digits, JS regex match(/\d{4}/). -/
def firstFourDigits : List Char → Option (List Char)
  | c0 :: c1 :: c2 :: c3 :: rest =>
    if c0.isDigit && c1.isDigit && c2.isDigit && c3.isDigit then some [c0, c1, c2, c3]
    else firstFourDigits (c1 :: c2 :: c3 :: rest)
  | _ => none

/-- extractYearFromMonth: regex-extract a 4-digit token, else the current
calendar year; an empty (falsy) label also yields the current year. -/
def extractYearFromMonth (nowYear : Int) (paymentMonth : String) : Int :=
  if paymentMonth = "" then nowYear
  else
    match firstFourDigits paymentMonth.data with
    | some ds => (digitsToNat ds : Int)
    | none => nowYear

/-- The submission status flip approveSubmission performs. -/
def markVerified (t : Submission) : Submission := { t with status := .verified }

/-- The member rewrite approveSubmission performs: absolute totals computed
from the member document read before the batch, counter increments, and
refreshed interest eligibility. -/
def applyApproval (s : Settings) (m : Member) (sub : Submission) (x : Member) : Member :=
  { x with totalSavings := m.totalSavings + sub.amount,
           totalFines := m.totalFines + sub.fineAmount,
           verifiedCount := x.verifiedCount + 1,
           pendingCount := x.pendingCount - 1,
           lastPaymentMonth := some sub.paymentMonth,
           qualifiesForInterest :=
             decide (m.totalSavings + sub.amount ≥ s.interestEligibilityMin),
           consecutiveMonths := x.consecutiveMonths + 1 }

/-- approveSubmission of part_006: pending guard, then one batch flipping the
submission to verified, rewriting the linked member aggregates from freshly
computed totals, and routing a positive fine into the interest pool bucket of
the year extracted from the payment-period label. -/
def approveSubmission (s : Settings) (nowYear : Int) (db : DB) (submissionId : Nat) :
    Except String DB :=
  match getSubmission db submissionId with
  | none => .error "Submission not found"
  | some sub =>
    if sub.status ≠ Status.pending then .error "Submission already processed"
    else
      let fineAmount := sub.fineAmount
      let paymentYear := extractYearFromMonth nowYear sub.paymentMonth
      let subs := updateSubRec db.submissions submissionId markVerified
      let members :=
        match sub.memberId with
        | none => db.members
        | some mid =>
          match getMember db mid with
          | none => db.members
          | some m => updateMemberRec db.members mid (applyApproval s m sub)
      let pool :=
        if fineAmount > 0 then poolAdd db.pool (toString paymentYear) fineAmount else db.pool
      .ok { db with submissions := subs, members := members, pool := pool }

/-- The submission status flip rejectSubmission performs. -/
def markRejected (reason : String) (t : Submission) : Submission :=
  { t with status := .rejected,
           rejectionReason := some (if reason = "" then "No reason provided" else reason) }

/-- The member-count move rejectSubmission performs. -/
def rejectBump (x : Member) : Member :=
  { x with pendingCount := x.pendingCount - 1, rejectedCount := x.rejectedCount + 1 }

/-- rejectSubmission of part_006: pending guard, then one batch flipping the
submission to rejected and moving the linked member one pending count to
rejected.  The member batch.update presumes the member document exists; a
dangling memberId would fail the whole batch with no write. -/
def rejectSubmission (db : DB) (submissionId : Nat) (reason : String) : Except String DB :=
  match getSubmission db submissionId with
  | none => .error "Submission not found"
  | some sub =>
    if sub.status ≠ Status.pending then .error "Submission already processed"
    else
      let subs := updateSubRec db.submissions submissionId (markRejected reason)
      match sub.memberId with
      | none => .ok { db with submissions := subs }
      | some mid =>
        if (getMember db mid).isSome then
          let members := updateMemberRec db.members mid rejectBump
          .ok { db with submissions := subs, members := members }
        else .error "Batch update failed: member document does not exist"

/-- verifyMemberLogin: phone lookup, then re-hash and compare.  The audit-log
write catches its own failures and the surrounding catch only converts thrown
store errors to null, so sequentially the result is the found member exactly
when the digests match. -/
def verifyMemberLogin (db : DB) (phone password : String) : Option Member :=
  match getMemberByPhone db phone with
  | none => none
  | some member =>
    if member.passwordHash ≠ hashPassword password then none else some member

end Part006

/-! ## The single-store Database (src/js/submit-pop.js)

The Database object defined in submit-pop.js: Firestore only, with the
page-level form handling out of scope (amount positivity is checked only by
the page's validateForm, never by Database.submitPOP). -/

namespace SubmitPop

/-- APP_SETTINGS?.interestEligibilityMin || 10000 - both the shipped config
value and the inline fallback are 10000. -/
def interestEligibilityMin : Int := 10000

/-- APP_SETTINGS?.lateFineAmount || 50 - config value and fallback agree. -/
def lateFineAmount : Int := 50

/-- Utils.isPaymentLate reads APP_SETTINGS?.lateDayOfMonth || 7; the key is
absent from APP_SETTINGS, so the fallback 7 applies. -/
def lateDayOfMonth : Int := 7

structure Member where
  id : Nat
  phone : String
  idNumber : String
  passwordHash : String
  status : String
  totalSavings : Int
  totalFines : Int
  submissionCount : Int
  verifiedCount : Int
  pendingCount : Int
  rejectedCount : Int
  qualifiesForInterest : Bool
  lastPaymentMonth : Option String
  skippedMonths : Int
deriving DecidableEq, Repr

structure Submission where
  id : Nat
  memberId : Option Nat
  name : String
  phone : String
  amount : Int
  fineAmount : Int
  isLate : Bool
  paymentMonth : String
  paymentDay : Int
  status : Status
  rejectionReason : Option String
deriving DecidableEq, Repr

structure DB where
  members : List Member
  submissions : List Submission
  pool : List (String × Int)
  nextMemberId : Nat
  nextSubmissionId : Nat
deriving DecidableEq, Repr

def DB.empty : DB :=
  { members := [], submissions := [], pool := [], nextMemberId := 0, nextSubmissionId := 0 }

def getMemberByPhone (db : DB) (phone : String) : Option Member :=
  db.members.find? (fun m => m.phone = stripSpacesDashes phone)

def getMemberByIdNumber (db : DB) (idNumber : String) : Option Member :=
  db.members.find? (fun m => m.idNumber = idNumber)

def getMember (db : DB) (memberId : Nat) : Option Member :=
  db.members.find? (fun m => m.id = memberId)

def getSubmission (db : DB) (submissionId : Nat) : Option Submission :=
  db.submissions.find? (fun s => s.id = submissionId)

def updateMemberRec (members : List Member) (memberId : Nat) (f : Member → Member) :
    List Member :=
  members.map (fun m => if m.id = memberId then f m else m)

def updateSubRec (subs : List Submission) (submissionId : Nat) (f : Submission → Submission) :
    List Submission :=
  subs.map (fun s => if s.id = submissionId then f s else s)

/-- This variant appends a fixed salt string before digesting
(SHA-256 of password + "tshikota_salt_2024"). -/
def hashPassword (password : String) : String :=
  Sha256.hexOfString (password ++ "tshikota_salt_2024")

structure RegData where
  name : String
  phone : String
  idNumber : String
  password : String
deriving DecidableEq, Repr

def registerMember (db : DB) (d : RegData) : Except String (DB × Nat) :=
  let normalizedPhone := stripSpacesDashes d.phone
  if (getMemberByPhone db normalizedPhone).isSome then
    .error "This phone number is already registered. Please use View Account to log in."
  else if (getMemberByIdNumber db d.idNumber).isSome then
    .error "This ID number is already registered."
  else
    let m : Member :=
      { id := db.nextMemberId, phone := normalizedPhone, idNumber := d.idNumber,
        passwordHash := hashPassword d.password, status := "active",
        totalSavings := 0, totalFines := 0, submissionCount := 0, verifiedCount := 0,
        pendingCount := 0, rejectedCount := 0, qualifiesForInterest := false,
        lastPaymentMonth := none, skippedMonths := 0 }
    .ok ({ db with members := db.members ++ [m], nextMemberId := db.nextMemberId + 1 },
         db.nextMemberId)

structure SubmitData where
  name : String
  phone : String
  /-- Number(submissionData.amount): stored with no validation whatsoever. -/
  amount : Int
  paymentDay : Int
  paymentMonth : String
deriving DecidableEq, Repr

/-- The pending-count bump submitPOP performs on the linked member
(submissionCount is deliberately untouched here in this variant). -/
def pendBump (x : Member) : Member := { x with pendingCount := x.pendingCount + 1 }

/-- submitPOP of submit-pop.js: no amount validation; pending submission with
a phone-resolved member link; on a linked member only pendingCount is
incremented (submissionCount is not - it moves at approval in this variant). -/
def submitPOP (db : DB) (d : SubmitData) : Except String (DB × Nat) :=
  let normalizedPhone := stripSpacesDashes d.phone
  let isLate := d.paymentDay > lateDayOfMonth
  let fineAmount := if isLate then lateFineAmount else 0
  let member := getMemberByPhone db normalizedPhone
  let sub : Submission :=
    { id := db.nextSubmissionId, memberId := member.map (fun m => m.id),
      name := d.name, phone := normalizedPhone, amount := d.amount,
      fineAmount := fineAmount, isLate := isLate, paymentMonth := d.paymentMonth,
      paymentDay := d.paymentDay, status := .pending, rejectionReason := none }
  let members :=
    match member with
    | some m => updateMemberRec db.members m.id pendBump
    | none => db.members
  .ok ({ db with members := members, submissions := db.submissions ++ [sub],
                 nextSubmissionId := db.nextSubmissionId + 1 },
       db.nextSubmissionId)

/-- JS parseInt: skip leading whitespace, read a decimal digit run, NaN if
none (signs do not occur in the payment labels this is applied to). -/
def parseIntJS (s : String) : Option Int :=
  let t := s.data.dropWhile Char.isWhitespace
  let ds := t.takeWhile Char.isDigit
  if ds.isEmpty then none else some (digitsToNat ds : Int)

/-- JS String.prototype.split(" "): cut at every single space, keeping empty
fields between consecutive separators. -/
def splitSpaceAux : List Char → List Char → List String
  | [], acc => [String.mk acc.reverse]
  | c :: cs, acc =>
    if c = ' ' then String.mk acc.reverse :: splitSpaceAux cs []
    else splitSpaceAux cs (c :: acc)

def splitSpace (s : String) : List String := splitSpaceAux s.data []

/-- The interest-pool document key computed inside approveSubmission:
paymentMonth.split(" "), then parseInt of the second token when the split has
more than one part, else the current (approval-time) year; parseInt of a
non-numeric token yields NaN, whose document key is the string "NaN". -/
def paymentYearKey (nowYear : Int) (paymentMonth : String) : String :=
  match splitSpace paymentMonth with
  | [] => toString nowYear
  | [_] => toString nowYear
  | _ :: p1 :: _ =>
    match parseIntJS p1 with
    | some n => toString n
    | none => "NaN"

/-- The submission update approveSubmission performs: status flip plus the
overwrite of the stored memberId with the caller-supplied argument. -/
def markVerifiedAs (memberIdArg : Option Nat) (t : Submission) : Submission :=
  { t with status := .verified, memberId := memberIdArg }

/-- The member rewrite approveSubmission performs: atomic increments of the
totals and counts, with eligibility recomputed from the member document read
before the batch. -/
def applyApproval (m : Member) (sub : Submission) (x : Member) : Member :=
  { x with totalSavings := x.totalSavings + sub.amount,
           totalFines := x.totalFines + sub.fineAmount,
           submissionCount := x.submissionCount + 1,
           verifiedCount := x.verifiedCount + 1,
           pendingCount := x.pendingCount - 1,
           lastPaymentMonth := some sub.paymentMonth,
           skippedMonths := 0,
           qualifiesForInterest :=
             decide (m.totalSavings + sub.amount ≥ interestEligibilityMin) }

/-- approveSubmission of submit-pop.js.  Differences from part_006, all
visible in the source: no pending-status guard; the caller passes the member
id (default null) and the batch overwrites the submission's stored memberId
with it; submissionCount is incremented at approval; the pool key comes from
splitting the label on a space.  A memberId argument naming a nonexistent
member document fails the whole batch (no write). -/
def approveSubmission (nowYear : Int) (db : DB) (submissionId : Nat)
    (memberIdArg : Option Nat) : Except String DB :=
  match getSubmission db submissionId with
  | none => .error "Submission not found"
  | some sub =>
    let subs := updateSubRec db.submissions submissionId (markVerifiedAs memberIdArg)
    let pool :=
      if sub.fineAmount > 0 then
        poolAdd db.pool (paymentYearKey nowYear sub.paymentMonth) sub.fineAmount
      else db.pool
    match memberIdArg with
    | none => .ok { db with submissions := subs, pool := pool }
    | some mid =>
      match getMember db mid with
      | none => .error "Batch update failed: member document does not exist"
      | some m =>
        let members := updateMemberRec db.members mid (applyApproval m sub)
        .ok { db with submissions := subs, members := members, pool := pool }

/-- The submission update rejectSubmission performs. -/
def markRejected (reason : String) (t : Submission) : Submission :=
  { t with status := .rejected, rejectionReason := some reason }

/-- The member-count move rejectSubmission performs. -/
def rejectBump (x : Member) : Member :=
  { x with pendingCount := x.pendingCount - 1, rejectedCount := x.rejectedCount + 1 }

/-- rejectSubmission of submit-pop.js: no status guard either; flips to
rejected and moves the stored member link one pending count to rejected. -/
def rejectSubmission (db : DB) (submissionId : Nat) (reason : String) : Except String DB :=
  match getSubmission db submissionId with
  | none => .error "Submission not found"
  | some sub =>
    let subs := updateSubRec db.submissions submissionId (markRejected reason)
    match sub.memberId with
    | none => .ok { db with submissions := subs }
    | some mid =>
      if (getMember db mid).isSome then
        let members := updateMemberRec db.members mid rejectBump
        .ok { db with submissions := subs, members := members }
      else .error "Batch update failed: member document does not exist"

structure Stats where
  totalSavings : Int
  totalFines : Int
  submissionCount : Int
  verifiedCount : Int
  pendingCount : Int
  rejectedCount : Int
  qualifiesForInterest : Bool
deriving DecidableEq, Repr

/-- The forEach accumulation inside recalculateMemberStats:
(totalSavings, totalFines, verifiedCount, pendingCount, rejectedCount). -/
def tally : List Submission → Int × Int × Int × Int × Int
  | [] => (0, 0, 0, 0, 0)
  | s :: rest =>
    let (ts, tf, v, p, r) := tally rest
    match s.status with
    | .verified => (ts + s.amount, tf + s.fineAmount, v + 1, p, r)
    | .pending => (ts, tf, v, p + 1, r)
    | .rejected => (ts, tf, v, p, r + 1)

/-- The overwrite recalculateMemberStats performs on the member document:
the freshly computed values win outright. -/
def overwriteStats (stats : Stats) (x : Member) : Member :=
  { x with totalSavings := stats.totalSavings, totalFines := stats.totalFines,
           submissionCount := stats.submissionCount, verifiedCount := stats.verifiedCount,
           pendingCount := stats.pendingCount, rejectedCount := stats.rejectedCount,
           qualifiesForInterest := stats.qualifiesForInterest }

/-- recalculateMemberStats: rebuild one member's aggregates from the full set
of that member's submission records and overwrite the member document. -/
def recalculateMemberStats (db : DB) (memberId : Nat) : Except String (DB × Stats) :=
  match getMember db memberId with
  | none => .error "Member not found"
  | some _ =>
    let subs := db.submissions.filter (fun t => t.memberId = some memberId)
    let (ts, tf, v, p, r) := tally subs
    let qualifies := decide (ts ≥ interestEligibilityMin)
    let stats : Stats :=
      { totalSavings := ts, totalFines := tf, submissionCount := (subs.length : Int),
        verifiedCount := v, pendingCount := p, rejectedCount := r,
        qualifiesForInterest := qualifies }
    let members := updateMemberRec db.members memberId (overwriteStats stats)
    .ok ({ db with members := members }, stats)

/-- The for-of loop of recalculateAllMemberStats over a snapshot of member
ids, threading the state and counting after each successful step; the
enclosing try/catch rethrows, so a failing step ends the loop with that
error.  The step is a parameter so that a store failure on one member (the
only failure source for members taken from the snapshot) is expressible. -/
def recalcLoop (step : DB → Nat → Except String (DB × Stats)) :
    DB → List Nat → Nat → Except String (DB × Nat)
  | db, [], count => .ok (db, count)
  | db, memberId :: rest, count =>
    match step db memberId with
    | .error e => .error e
    | .ok (db1, _) => recalcLoop step db1 rest (count + 1)

/-- recalculateAllMemberStats: getMembers (ordering by name does not affect
the result), then the sequential per-member loop. -/
def recalculateAllMemberStats (db : DB) : Except String (DB × Nat) :=
  recalcLoop (fun s mid => recalculateMemberStats s mid) db (db.members.map (fun m => m.id)) 0

end SubmitPop

/-! ## The attempts-tracking SMS module (src/unnamed/part_001) -/

namespace SMSNew

structure OtpRec where
  otp : String
  expiresAt : Int
  used : Bool
  attempts : Int
deriving DecidableEq, Repr

/-- otpCodes collection, keyed by formatted phone. -/
abbrev OtpStore := List (String × OtpRec)

/-- formatPhoneNumber of part_001: strip non-digits, normalise to
27XXXXXXXXX, null on anything unrecognised (including an empty/falsy input). -/
def formatPhoneNumber (phone : String) : Option String :=
  if phone = "" then none
  else
    let cl := (keepDigits phone).data
    if cl.take 2 = ['2', '7'] && cl.length = 11 then some (String.mk cl)
    else if cl.take 1 = ['0'] && cl.length = 10 then some ("27" ++ String.mk (cl.drop 1))
    else if cl.length = 9 && cl.take 1 ≠ ['0'] then some ("27" ++ String.mk cl)
    else none

/-- sendPasswordResetOTP of part_001: store the code with a 10-minute
absolute expiry, used=false, attempts=0, keyed by the formatted phone
(overwriting any previous record for that phone), then send the SMS.  The
generated random code is a parameter; the SMS transport is modelled as
succeeding (on transport failure the code deletes the fresh record). -/
def sendPasswordResetOTP (now : Int) (st : OtpStore) (phone otp : String) :
    Bool × OtpStore :=
  match formatPhoneNumber phone with
  | none => (false, st)
  | some k =>
    (true, assocSet st k { otp := otp, expiresAt := now + 600000, used := false, attempts := 0 })

/-- verifyOTP of part_001 (lines 638-704): the full OTP state machine. -/
def verifyOTP (now : Int) (st : OtpStore) (phone otp : String) : Bool × OtpStore :=
  match formatPhoneNumber phone with
  | none => (false, st)
  | some k =>
    match assocGet st k with
    | none => (false, st)
    | some r =>
      if r.used then (false, st)
      else if now > r.expiresAt then (false, assocDel st k)
      else if r.attempts ≥ 3 then (false, assocDel st k)
      else if r.otp ≠ otp then (false, assocSet st k { r with attempts := r.attempts + 1 })
      else (true, assocSet st k { r with used := true })

end SMSNew

/-! ## The legacy SMS module (src/js/sms.js) -/

namespace SMSOld

structure OtpRec where
  otp : String
  expiresAt : Int
  used : Bool
deriving DecidableEq, Repr

abbrev OtpStore := List (String × OtpRec)

/-- formatPhoneNumber of sms.js: keep digits and plus signs, normalise to
+27XXXXXXXXX, and fall back to prefixing + or +27 (never null). -/
def formatPhoneNumber (phone : String) : String :=
  let cleaned := phone.data.filter (fun c => c.isDigit || c = '+')
  let hasPlus := cleaned.take 1 = ['+']
  let cl := if hasPlus then cleaned.drop 1 else cleaned
  if cl.take 2 = ['2', '7'] && cl.length = 11 then "+" ++ String.mk cl
  else if cl.take 1 = ['0'] && cl.length = 10 then "+27" ++ String.mk (cl.drop 1)
  else if cl.length = 9 && (cl.take 1 = ['6'] || cl.take 1 = ['7'] || cl.take 1 = ['8']) then
    "+27" ++ String.mk cl
  else if hasPlus then "+" ++ String.mk cl else "+27" ++ String.mk cl

/-- sendPasswordResetOTP of sms.js: on transport success (modelled as always,
mock provider) store the code with a 10-minute expiry and used=false - this
variant records no attempt counter at all. -/
def sendPasswordResetOTP (now : Int) (st : OtpStore) (phone otp : String) :
    Bool × OtpStore :=
  (true, assocSet st (formatPhoneNumber phone)
    { otp := otp, expiresAt := now + 600000, used := false })

/-- verifyOTP of sms.js (lines 517-541): one combined validity check - match,
unused, unexpired; mark used on success; no deletions, no attempt counting. -/
def verifyOTP (now : Int) (st : OtpStore) (phone otp : String) : Bool × OtpStore :=
  let k := formatPhoneNumber phone
  match assocGet st k with
  | none => (false, st)
  | some r =>
    let isValid := r.otp = otp && !r.used && r.expiresAt > now
    if isValid then (true, assocSet st k { r with used := true }) else (false, st)

end SMSOld

/-! ## Generic lemmas about keyed-record lists -/

section KeyedList

variable {α : Type}

/-- A keyed pointwise update is the identity when no element carries the key. -/
theorem map_update_of_not_mem (idOf : α → Nat) (key : Nat) (g : α → α) (l : List α)
    (h : ∀ x ∈ l, idOf x ≠ key) :
    l.map (fun x => if idOf x = key then g x else x) = l := by
  induction l with
  | nil => rfl
  | cons a rest ih =>
    simp only [List.map_cons]
    rw [if_neg (h a (List.mem_cons_self a rest)),
        ih (fun x hx => h x (List.mem_cons_of_mem a hx))]

/-- Updating the unique element carrying a key shifts any additive aggregate
by the change at that element. -/
theorem sum_map_update (idOf : α → Nat) (f : α → Int) (key : Nat) (g : α → α)
    (l : List α) (t : α) (hnd : (l.map idOf).Nodup) (ht : t ∈ l) (hid : idOf t = key) :
    ((l.map (fun x => if idOf x = key then g x else x)).map f).sum
      = (l.map f).sum + (f (g t) - f t) := by
  induction l with
  | nil => cases ht
  | cons a rest ih =>
    rw [List.map_cons, List.nodup_cons] at hnd
    obtain ⟨hnotin, hndr⟩ := hnd
    rcases List.mem_cons.mp ht with rfl | hmem
    · have hrest : ∀ x ∈ rest, idOf x ≠ key := by
        intro x hx he
        exact hnotin (hid ▸ he ▸ List.mem_map_of_mem idOf hx)
      simp only [List.map_cons, if_pos hid, List.sum_cons,
        map_update_of_not_mem idOf key g rest hrest]
      ring
    · have hane : idOf a ≠ key := by
        intro he
        exact hnotin (he ▸ hid ▸ List.mem_map_of_mem idOf hmem)
      simp only [List.map_cons, if_neg hane, List.sum_cons, ih hndr hmem]
      ring

/-- A keyed pointwise update by a key-preserving function leaves the key
sequence unchanged. -/
theorem map_update_map_idOf (idOf : α → Nat) (key : Nat) (g : α → α)
    (hg : ∀ x, idOf (g x) = idOf x) (l : List α) :
    (l.map (fun x => if idOf x = key then g x else x)).map idOf = l.map idOf := by
  induction l with
  | nil => rfl
  | cons a rest ih =>
    by_cases h : idOf a = key <;> simp [h, hg, ih]

/-- With distinct keys, find? by key returns the member carrying it. -/
theorem find?_eq_of_nodup (idOf : α → Nat) (l : List α) (t : α) (key : Nat)
    (hnd : (l.map idOf).Nodup) (ht : t ∈ l) (hid : idOf t = key) :
    l.find? (fun x => idOf x = key) = some t := by
  induction l with
  | nil => cases ht
  | cons a rest ih =>
    rw [List.map_cons, List.nodup_cons] at hnd
    obtain ⟨hnotin, hndr⟩ := hnd
    rcases List.mem_cons.mp ht with rfl | hmem
    · exact List.find?_cons_of_pos _ (by simpa using hid)
    · have hane : idOf a ≠ key := by
        intro he
        exact hnotin (he ▸ hid ▸ List.mem_map_of_mem idOf hmem)
      rw [List.find?_cons_of_neg _ (by simpa using hane)]
      exact ih hndr hmem

/-- find? by key commutes with the keyed pointwise update when the update
preserves keys. -/
theorem find?_map_update (idOf : α → Nat) (key : Nat) (g : α → α)
    (hg : ∀ x, idOf (g x) = idOf x) (l : List α) :
    (l.map (fun x => if idOf x = key then g x else x)).find? (fun x => idOf x = key)
      = (l.find? (fun x => idOf x = key)).map g := by
  induction l with
  | nil => rfl
  | cons a rest ih =>
    by_cases h : idOf a = key
    · rw [List.map_cons, if_pos h,
          List.find?_cons_of_pos _ (by simpa using (hg a).trans h),
          List.find?_cons_of_pos _ (by simpa using h)]
      rfl
    · rw [List.map_cons, if_neg h,
          List.find?_cons_of_neg _ (by simpa using h),
          List.find?_cons_of_neg _ (by simpa using h)]
      exact ih

/-- find? by one key ignores a keyed update at a different key. -/
theorem find?_map_update_ne (idOf : α → Nat) (key key' : Nat) (g : α → α)
    (hg : ∀ x, idOf (g x) = idOf x) (hne : key' ≠ key) (l : List α) :
    (l.map (fun x => if idOf x = key then g x else x)).find? (fun x => idOf x = key')
      = l.find? (fun x => idOf x = key') := by
  induction l with
  | nil => rfl
  | cons a rest ih =>
    by_cases h : idOf a = key
    · have h1 : ¬ idOf (g a) = key' := by rw [hg a, h]; exact fun he => hne he.symm
      have h2 : ¬ idOf a = key' := by rw [h]; exact fun he => hne he.symm
      rw [List.map_cons, if_pos h,
          List.find?_cons_of_neg _ (by simpa using h1),
          List.find?_cons_of_neg _ (by simpa using h2)]
      exact ih
    · by_cases h' : idOf a = key'
      · rw [List.map_cons, if_neg h,
            List.find?_cons_of_pos _ (by simpa using h'),
            List.find?_cons_of_pos _ (by simpa using h')]
      · rw [List.map_cons, if_neg h,
            List.find?_cons_of_neg _ (by simpa using h'),
            List.find?_cons_of_neg _ (by simpa using h')]
        exact ih

end KeyedList

/-! ## Lemmas about the shared assoc-list document stores -/

theorem poolAdd_assocGet_self (pool : List (String × Int)) (key : String) (amt : Int) :
    (assocGet (poolAdd pool key amt) key).getD 0 = ((assocGet pool key).getD 0) + amt := by
  induction pool with
  | nil => simp [poolAdd, assocGet]
  | cons a rest ih =>
    obtain ⟨k, v⟩ := a
    by_cases h : k = key
    · subst h; simp [poolAdd, assocGet]
    · simp [poolAdd, h, assocGet, ih]

theorem poolAdd_assocGet_ne (pool : List (String × Int)) (key key' : String) (amt : Int)
    (h : key' ≠ key) :
    assocGet (poolAdd pool key amt) key' = assocGet pool key' := by
  induction pool with
  | nil => simp [poolAdd, assocGet, Ne.symm h]
  | cons a rest ih =>
    obtain ⟨k, v⟩ := a
    by_cases hk : k = key
    · subst hk; simp [poolAdd, assocGet, Ne.symm h]
    · by_cases hk' : k = key'
      · subst hk'; simp [poolAdd, hk, assocGet]
      · simp [poolAdd, hk, assocGet, hk', ih]

theorem assocSet_get_self {β : Type} (st : List (String × β)) (k : String) (r : β) :
    assocGet (assocSet st k r) k = some r := by
  induction st with
  | nil => simp [assocSet, assocGet]
  | cons a rest ih =>
    obtain ⟨k0, r0⟩ := a
    by_cases h : k0 = k
    · subst h; simp [assocSet, assocGet]
    · simp [assocSet, h, assocGet, ih]

theorem assocSet_get_ne {β : Type} (st : List (String × β)) (k k' : String) (r : β)
    (h : k' ≠ k) :
    assocGet (assocSet st k r) k' = assocGet st k' := by
  induction st with
  | nil => simp [assocSet, assocGet, Ne.symm h]
  | cons a rest ih =>
    obtain ⟨k0, r0⟩ := a
    by_cases hk : k0 = k
    · subst hk; simp [assocSet, assocGet, Ne.symm h]
    · by_cases hk' : k0 = k'
      · subst hk'; simp [assocSet, hk, assocGet]
      · simp [assocSet, hk, assocGet, hk', ih]

theorem assocDel_get_self {β : Type} (st : List (String × β)) (k : String) :
    assocGet (assocDel st k) k = none := by
  induction st with
  | nil => rfl
  | cons a rest ih =>
    obtain ⟨k0, r0⟩ := a
    by_cases h : k0 = k
    · subst h; simpa [assocDel] using ih
    · simpa [assocDel, h, assocGet] using ih

/-! ## More generic list lemmas -/

theorem sum_map_append {α : Type} (f : α → Int) (l : List α) (t : α) :
    ((l ++ [t]).map f).sum = (l.map f).sum + f t := by simp

theorem sum_map_zero {α : Type} (f : α → Int) (l : List α) (h : ∀ x ∈ l, f x = 0) :
    (l.map f).sum = 0 := by
  induction l with
  | nil => rfl
  | cons a rest ih =>
    simp only [List.map_cons, List.sum_cons, h a (List.mem_cons_self a rest)]
    rw [ih (fun x hx => h x (List.mem_cons_of_mem a hx))]
    ring

theorem find?_id_mem {α : Type} (idOf : α → Nat) {l : List α} {key : Nat} {t : α}
    (h : l.find? (fun x => idOf x = key) = some t) : t ∈ l ∧ idOf t = key :=
  ⟨List.mem_of_find?_eq_some h, by simpa using List.find?_some h⟩

theorem find?_isSome_of_mem_map {α : Type} (idOf : α → Nat) {l : List α} {key : Nat}
    (h : key ∈ l.map idOf) : ∃ t, l.find? (fun x => idOf x = key) = some t := by
  rcases List.mem_map.mp h with ⟨x, hx, hxe⟩
  cases hfind : l.find? (fun y => idOf y = key) with
  | some t => exact ⟨t, rfl⟩
  | none =>
    have := List.find?_eq_none.mp hfind x hx
    simp [hxe] at this

/-! ## The ledger consistency invariant of the dual-store engine -/

namespace Part006

/-- Contribution of one submission record to a member's total savings:
its amount when it is that member's verified submission, else zero. -/
def savingsContrib (mid : Nat) (s : Submission) : Int :=
  if s.memberId = some mid ∧ s.status = Status.verified then s.amount else 0

/-- Contribution to the member's total fines. -/
def finesContrib (mid : Nat) (s : Submission) : Int :=
  if s.memberId = some mid ∧ s.status = Status.verified then s.fineAmount else 0

/-- Indicator that the submission belongs to the member and has the status. -/
def statusContrib (mid : Nat) (st : Status) (s : Submission) : Int :=
  if s.memberId = some mid ∧ s.status = st then 1 else 0

/-- Indicator that the submission belongs to the member. -/
def linkContrib (mid : Nat) (s : Submission) : Int :=
  if s.memberId = some mid then 1 else 0

/-- Sum of a per-submission aggregate over submission records. -/
def sumOver (f : Submission → Int) (subs : List Submission) : Int := (subs.map f).sum

/-- Every member document carries exactly the aggregates derivable from the
authoritative submission records. -/
def LedgerInv (db : DB) : Prop :=
  ∀ m ∈ db.members,
    m.totalSavings = sumOver (savingsContrib m.id) db.submissions ∧
    m.totalFines = sumOver (finesContrib m.id) db.submissions ∧
    m.verifiedCount = sumOver (statusContrib m.id Status.verified) db.submissions ∧
    m.pendingCount = sumOver (statusContrib m.id Status.pending) db.submissions ∧
    m.rejectedCount = sumOver (statusContrib m.id Status.rejected) db.submissions ∧
    m.submissionCount = sumOver (linkContrib m.id) db.submissions

/-- Structural well-formedness: ids are below the counters and distinct, and
submission links point at existing members. -/
def Wf (db : DB) : Prop :=
  (∀ m ∈ db.members, m.id < db.nextMemberId) ∧
  (db.members.map Member.id).Nodup ∧
  (∀ t ∈ db.submissions, t.id < db.nextSubmissionId) ∧
  (db.submissions.map Submission.id).Nodup ∧
  (∀ t ∈ db.submissions, ∀ mid, t.memberId = some mid → mid ∈ db.members.map Member.id)

/-- States reachable from the empty store by the engine operations, for a
fixed settings object; each step may run at any current year. -/
inductive Reachable (s : Settings) : DB → Prop
  | init : Reachable s DB.empty
  | register {db d db1 mid} : Reachable s db →
      registerMember db d = .ok (db1, mid) → Reachable s db1
  | submit {db d db1 sid} : Reachable s db →
      submitPOP s db d = .ok (db1, sid) → Reachable s db1
  | approve {db nowYear sid db1} : Reachable s db →
      approveSubmission s nowYear db sid = .ok db1 → Reachable s db1
  | reject {db sid reason db1} : Reachable s db →
      rejectSubmission db sid reason = .ok db1 → Reachable s db1

theorem wfInv_empty : Wf DB.empty ∧ LedgerInv DB.empty := by
  constructor
  · refine ⟨?_, ?_, ?_, ?_, ?_⟩ <;> simp [DB.empty, Wf]
  · intro m hm; simp [DB.empty] at hm

end Part006

namespace Part006

/-- Inversion of a successful registration. -/
theorem registerMember_ok {db d db1 mid} (h : registerMember db d = .ok (db1, mid)) :
    mid = db.nextMemberId ∧
    ∃ m : Member, m.id = db.nextMemberId ∧ m.totalSavings = 0 ∧ m.totalFines = 0 ∧
      m.submissionCount = 0 ∧ m.verifiedCount = 0 ∧ m.pendingCount = 0 ∧
      m.rejectedCount = 0 ∧ m.passwordHash = hashPassword d.password ∧
      m.phone = stripSpacesDashes d.phone ∧
      db1 = { db with members := db.members ++ [m], nextMemberId := db.nextMemberId + 1 } := by
  simp only [registerMember] at h
  by_cases hp : (getMemberByPhone db (stripSpacesDashes d.phone)).isSome
  · rw [if_pos hp] at h; exact absurd h (by simp)
  · rw [if_neg hp] at h
    by_cases hid : (getMemberByIdNumber db d.idNumber).isSome
    · rw [if_pos hid] at h; exact absurd h (by simp)
    · rw [if_neg hid] at h
      rw [Except.ok.injEq, Prod.mk.injEq] at h
      obtain ⟨h1, h2⟩ := h
      subst h1
      exact ⟨h2.symm,
        { id := db.nextMemberId, phone := stripSpacesDashes d.phone, idNumber := d.idNumber,
          passwordHash := hashPassword d.password, status := "active", totalSavings := 0,
          totalFines := 0, submissionCount := 0, verifiedCount := 0, pendingCount := 0,
          rejectedCount := 0, qualifiesForInterest := false, lastPaymentMonth := none,
          consecutiveMonths := 0, skippedMonths := 0 },
        rfl, rfl, rfl, rfl, rfl, rfl, rfl, rfl, rfl, rfl⟩

theorem wfInv_register {db d db1 mid} (hw : Wf db) (hi : LedgerInv db)
    (h : registerMember db d = .ok (db1, mid)) : Wf db1 ∧ LedgerInv db1 := by
  obtain ⟨-, m, hmid, hts, htf, hsc, hvc, hpc, hrc, -, -, hdb⟩ := registerMember_ok h
  obtain ⟨hw1, hw2, hw3, hw4, hw5⟩ := hw
  subst hdb
  constructor
  · refine ⟨?_, ?_, ?_, ?_, ?_⟩
    · intro x hx
      rcases List.mem_append.mp hx with hx | hx
      · exact Nat.lt_succ_of_lt (hw1 x hx)
      · rcases List.mem_singleton.mp hx with rfl
        simp [hmid]
    · rw [List.map_append]
      refine List.Nodup.append hw2 (List.nodup_singleton _) ?_
      intro a ha hb
      rcases List.mem_singleton.mp hb with rfl
      rcases List.mem_map.mp ha with ⟨x, hx, hxe⟩
      have := hw1 x hx
      omega
    · exact hw3
    · exact hw4
    · intro t ht mid' hmid'
      rw [List.map_append]
      exact List.mem_append_left _ (hw5 t ht mid' hmid')
  · intro x hx
    rcases List.mem_append.mp hx with hx | hx
    · exact hi x hx
    · rcases List.mem_singleton.mp hx with rfl
      have hzero : ∀ f : Submission → Int,
          (∀ t ∈ db.submissions, f t = 0) → sumOver f db.submissions = 0 :=
        fun f hf => sum_map_zero f db.submissions hf
      have hnolink : ∀ t ∈ db.submissions, t.memberId ≠ some x.id := by
        intro t ht he
        have := hw5 t ht x.id he
        rcases List.mem_map.mp this with ⟨y, hy, hye⟩
        have := hw1 y hy
        omega
      refine ⟨?_, ?_, ?_, ?_, ?_, ?_⟩ <;>
        simp only [hts, htf, hsc, hvc, hpc, hrc] <;>
        refine (hzero _ (fun t ht => ?_)).symm <;>
        simp [savingsContrib, finesContrib, statusContrib, linkContrib, hnolink t ht]

end Part006

/-- Elementwise description of membership in a keyed pointwise update. -/
theorem mem_map_update {α : Type} (idOf : α → Nat) (key : Nat) (g : α → α) (l : List α) (y : α)
    (hy : y ∈ l.map (fun x => if idOf x = key then g x else x)) :
    ∃ x ∈ l, y = if idOf x = key then g x else x := by
  rcases List.mem_map.mp hy with ⟨x, hx, hxy⟩
  exact ⟨x, hx, hxy.symm⟩

namespace Part006

theorem sumOver_append (f : Submission → Int) (l : List Submission) (t : Submission) :
    sumOver f (l ++ [t]) = sumOver f l + f t := sum_map_append f l t

theorem wfInv_submit {s db d db1 sid} (hw : Wf db) (hi : LedgerInv db)
    (h : submitPOP s db d = .ok (db1, sid)) : Wf db1 ∧ LedgerInv db1 := by
  obtain ⟨hw1, hw2, hw3, hw4, hw5⟩ := hw
  simp only [submitPOP] at h
  split at h
  · exact absurd h (by simp)
  · split at h
    · exact absurd h (by simp)
    · cases hm : getMemberByPhone db (stripSpacesDashes d.phone) with
      | none =>
        rw [hm] at h
        simp only [Option.map_none'] at h
        rw [Except.ok.injEq, Prod.mk.injEq] at h
        obtain ⟨h1, h2⟩ := h
        subst h1
        constructor
        · refine ⟨hw1, hw2, ?_, ?_, ?_⟩
          · intro t ht
            rcases List.mem_append.mp ht with ht | ht
            · exact Nat.lt_succ_of_lt (hw3 t ht)
            · rcases List.mem_singleton.mp ht with rfl
              exact Nat.lt_succ_self _
          · rw [List.map_append]
            refine List.Nodup.append hw4 (List.nodup_singleton _) ?_
            intro a ha hb
            rcases List.mem_singleton.mp hb with rfl
            rcases List.mem_map.mp ha with ⟨x, hx, hxe⟩
            have h3 := hw3 x hx
            have hxe2 : x.id = db.nextSubmissionId := by simpa using hxe
            omega
          · intro t ht mid' hmid'
            rcases List.mem_append.mp ht with ht | ht
            · exact hw5 t ht mid' hmid'
            · rcases List.mem_singleton.mp ht with rfl
              simp at hmid'
        · intro m hm'
          obtain ⟨e1, e2, e3, e4, e5, e6⟩ := hi m hm'
          refine ⟨?_, ?_, ?_, ?_, ?_, ?_⟩ <;>
            rw [sumOver_append] <;>
            simp [savingsContrib, finesContrib, statusContrib, linkContrib,
                  e1, e2, e3, e4, e5, e6]
      | some m0 =>
        rw [hm] at h
        simp only [Option.map_some'] at h
        rw [Except.ok.injEq, Prod.mk.injEq] at h
        obtain ⟨h1, h2⟩ := h
        subst h1
        have hm0mem : m0 ∈ db.members := List.mem_of_find?_eq_some hm
        have hinj := List.inj_on_of_nodup_map hw2
        constructor
        · refine ⟨?_, ?_, ?_, ?_, ?_⟩
          · intro y hy
            simp only [updateMemberRec] at hy
            rcases mem_map_update Member.id m0.id submitBump _ y hy with ⟨x, hx, rfl⟩
            by_cases hxid : x.id = m0.id
            · rw [if_pos hxid]; exact hw1 x hx
            · rw [if_neg hxid]; exact hw1 x hx
          · simp only [updateMemberRec]
            rw [map_update_map_idOf Member.id m0.id submitBump (fun x => rfl) db.members]
            exact hw2
          · intro t ht
            rcases List.mem_append.mp ht with ht | ht
            · exact Nat.lt_succ_of_lt (hw3 t ht)
            · rcases List.mem_singleton.mp ht with rfl
              exact Nat.lt_succ_self _
          · rw [List.map_append]
            refine List.Nodup.append hw4 (List.nodup_singleton _) ?_
            intro a ha hb
            rcases List.mem_singleton.mp hb with rfl
            rcases List.mem_map.mp ha with ⟨x, hx, hxe⟩
            have h3 := hw3 x hx
            have hxe2 : x.id = db.nextSubmissionId := by simpa using hxe
            omega
          · intro t ht mid' hmid'
            simp only [updateMemberRec]
            rw [map_update_map_idOf Member.id m0.id submitBump (fun x => rfl) db.members]
            rcases List.mem_append.mp ht with ht | ht
            · exact hw5 t ht mid' hmid'
            · rcases List.mem_singleton.mp ht with rfl
              simp only [Option.some.injEq] at hmid'
              rw [← hmid']
              exact List.mem_map_of_mem Member.id hm0mem
        · intro y hy
          simp only [updateMemberRec] at hy
          rcases mem_map_update Member.id m0.id submitBump _ y hy with ⟨x, hx, rfl⟩
          obtain ⟨e1, e2, e3, e4, e5, e6⟩ := hi x hx
          by_cases hxid : x.id = m0.id
          · rcases hinj hx hm0mem hxid with rfl
            rw [if_pos hxid]
            refine ⟨?_, ?_, ?_, ?_, ?_, ?_⟩ <;>
              rw [sumOver_append] <;>
              simp [savingsContrib, finesContrib, statusContrib, linkContrib, submitBump,
                    hxid, e1, e2, e3, e4, e5, e6]
          · rw [if_neg hxid]
            have hne : ¬ m0.id = x.id := fun he => hxid he.symm
            refine ⟨?_, ?_, ?_, ?_, ?_, ?_⟩ <;>
              rw [sumOver_append] <;>
              simp [savingsContrib, finesContrib, statusContrib, linkContrib, hne,
                    e1, e2, e3, e4, e5, e6]

end Part006

namespace Part006

theorem wfInv_approve {s db nowYear sid db1} (hw : Wf db) (hi : LedgerInv db)
    (h : approveSubmission s nowYear db sid = .ok db1) : Wf db1 ∧ LedgerInv db1 := by
  obtain ⟨hw1, hw2, hw3, hw4, hw5⟩ := hw
  simp only [approveSubmission] at h
  split at h
  · exact absurd h (by simp)
  · rename_i sub hsub
    split at h
    · exact absurd h (by simp)
    · rename_i hstat
      have hpend : sub.status = Status.pending := by
        by_contra hc
        exact hstat (by simpa using hc)
      obtain ⟨hsubmem, hsubid⟩ := find?_id_mem Submission.id hsub
      have hflipids := map_update_map_idOf Submission.id sid markVerified
        (fun t => rfl) db.submissions
      have hsumdelta : ∀ f : Submission → Int,
          sumOver f (updateSubRec db.submissions sid markVerified)
            = sumOver f db.submissions + (f (markVerified sub) - f sub) := by
        intro f
        simp only [updateSubRec, sumOver]
        exact sum_map_update Submission.id f sid markVerified db.submissions sub
          hw4 hsubmem hsubid
      cases hmid : sub.memberId with
      | none =>
        simp only [hmid] at h
        rw [Except.ok.injEq] at h
        subst h
        constructor
        · refine ⟨hw1, hw2, ?_, ?_, ?_⟩
          · intro t ht
            simp only [updateSubRec] at ht
            rcases mem_map_update Submission.id sid markVerified _ t ht with ⟨x, hx, rfl⟩
            by_cases hxid : x.id = sid
            · rw [if_pos hxid]; exact hw3 x hx
            · rw [if_neg hxid]; exact hw3 x hx
          · simp only [updateSubRec]
            rw [hflipids]; exact hw4
          · intro t ht mid' hmid'
            simp only [updateSubRec] at ht
            rcases mem_map_update Submission.id sid markVerified _ t ht with ⟨x, hx, rfl⟩
            by_cases hxid : x.id = sid
            · rw [if_pos hxid] at hmid'
              exact hw5 x hx mid' hmid'
            · rw [if_neg hxid] at hmid'
              exact hw5 x hx mid' hmid'
        · intro m hm'
          obtain ⟨e1, e2, e3, e4, e5, e6⟩ := hi m hm'
          have hnolink : (sub.memberId = some m.id) → False := by
            rw [hmid]; intro hc; cases hc
          refine ⟨?_, ?_, ?_, ?_, ?_, ?_⟩ <;>
            rw [hsumdelta] <;>
            simp [savingsContrib, finesContrib, statusContrib, linkContrib, markVerified,
                  hmid, e1, e2, e3, e4, e5, e6]
      | some mid =>
        simp only [hmid] at h
        cases hgm : getMember db mid with
        | none =>
          exfalso
          have hmidmem : mid ∈ db.members.map Member.id := hw5 sub hsubmem mid hmid
          rcases find?_isSome_of_mem_map Member.id hmidmem with ⟨t, hfind⟩
          rw [show getMember db mid = db.members.find? (fun x => Member.id x = mid) from rfl,
              hfind] at hgm
          cases hgm
        | some m0 =>
          simp only [hgm] at h
          rw [Except.ok.injEq] at h
          subst h
          obtain ⟨hm0mem, hm0id⟩ := find?_id_mem Member.id hgm
          have hinj := List.inj_on_of_nodup_map hw2
          constructor
          · refine ⟨?_, ?_, ?_, ?_, ?_⟩
            · intro y hy
              simp only [updateMemberRec] at hy
              rcases mem_map_update Member.id mid (applyApproval s m0 sub) _ y hy with
                ⟨x, hx, rfl⟩
              by_cases hxid : x.id = mid
              · rw [if_pos hxid]; exact hw1 x hx
              · rw [if_neg hxid]; exact hw1 x hx
            · simp only [updateMemberRec]
              rw [map_update_map_idOf Member.id mid (applyApproval s m0 sub)
                (fun x => rfl) db.members]
              exact hw2
            · intro t ht
              simp only [updateSubRec] at ht
              rcases mem_map_update Submission.id sid markVerified _ t ht with ⟨x, hx, rfl⟩
              by_cases hxid : x.id = sid
              · rw [if_pos hxid]; exact hw3 x hx
              · rw [if_neg hxid]; exact hw3 x hx
            · simp only [updateSubRec]
              rw [hflipids]; exact hw4
            · intro t ht mid' hmid'
              simp only [updateMemberRec]
              rw [map_update_map_idOf Member.id mid (applyApproval s m0 sub)
                (fun x => rfl) db.members]
              simp only [updateSubRec] at ht
              rcases mem_map_update Submission.id sid markVerified _ t ht with ⟨x, hx, rfl⟩
              by_cases hxid : x.id = sid
              · rw [if_pos hxid] at hmid'
                exact hw5 x hx mid' hmid'
              · rw [if_neg hxid] at hmid'
                exact hw5 x hx mid' hmid'
          · intro y hy
            simp only [updateMemberRec] at hy
            rcases mem_map_update Member.id mid (applyApproval s m0 sub) _ y hy with
              ⟨x, hx, rfl⟩
            obtain ⟨e1, e2, e3, e4, e5, e6⟩ := hi x hx
            by_cases hxid : x.id = mid
            · have hxm0 : x = m0 := hinj hx hm0mem (hxid.trans hm0id.symm)
              subst hxm0
              rw [if_pos hxid]
              refine ⟨?_, ?_, ?_, ?_, ?_, ?_⟩
              all_goals rw [hsumdelta]
              all_goals simp [savingsContrib, finesContrib, statusContrib, linkContrib,
                markVerified, applyApproval, hmid, hxid, hpend, e1, e2, e3, e4, e5, e6]
              all_goals try ring
            · rw [if_neg hxid]
              have hne : ¬ mid = x.id := fun he => hxid he.symm
              refine ⟨?_, ?_, ?_, ?_, ?_, ?_⟩ <;>
                rw [hsumdelta] <;>
                simp [savingsContrib, finesContrib, statusContrib, linkContrib,
                      markVerified, hmid, hne, e1, e2, e3, e4, e5, e6]

end Part006

namespace Part006

theorem wfInv_reject {db sid reason db1} (hw : Wf db) (hi : LedgerInv db)
    (h : rejectSubmission db sid reason = .ok db1) : Wf db1 ∧ LedgerInv db1 := by
  obtain ⟨hw1, hw2, hw3, hw4, hw5⟩ := hw
  simp only [rejectSubmission] at h
  split at h
  · exact absurd h (by simp)
  · rename_i sub hsub
    split at h
    · exact absurd h (by simp)
    · rename_i hstat
      have hpend : sub.status = Status.pending := by
        by_contra hc
        exact hstat (by simpa using hc)
      obtain ⟨hsubmem, hsubid⟩ := find?_id_mem Submission.id hsub
      have hflipids := map_update_map_idOf Submission.id sid (markRejected reason)
        (fun t => rfl) db.submissions
      have hsumdelta : ∀ f : Submission → Int,
          sumOver f (updateSubRec db.submissions sid (markRejected reason))
            = sumOver f db.submissions + (f (markRejected reason sub) - f sub) := by
        intro f
        simp only [updateSubRec, sumOver]
        exact sum_map_update Submission.id f sid (markRejected reason) db.submissions sub
          hw4 hsubmem hsubid
      have hsubswf : (∀ t ∈ updateSubRec db.submissions sid (markRejected reason),
            t.id < db.nextSubmissionId) ∧
          (List.map Submission.id
            (updateSubRec db.submissions sid (markRejected reason))).Nodup ∧
          (∀ t ∈ updateSubRec db.submissions sid (markRejected reason),
            ∀ mid', t.memberId = some mid' → mid' ∈ db.members.map Member.id) := by
        refine ⟨?_, ?_, ?_⟩
        · intro t ht
          simp only [updateSubRec] at ht
          rcases mem_map_update Submission.id sid (markRejected reason) _ t ht with
            ⟨x, hx, rfl⟩
          by_cases hxid : x.id = sid
          · rw [if_pos hxid]; exact hw3 x hx
          · rw [if_neg hxid]; exact hw3 x hx
        · simp only [updateSubRec]
          rw [hflipids]; exact hw4
        · intro t ht mid' hmid'
          simp only [updateSubRec] at ht
          rcases mem_map_update Submission.id sid (markRejected reason) _ t ht with
            ⟨x, hx, rfl⟩
          by_cases hxid : x.id = sid
          · rw [if_pos hxid] at hmid'
            exact hw5 x hx mid' hmid'
          · rw [if_neg hxid] at hmid'
            exact hw5 x hx mid' hmid'
      cases hmid : sub.memberId with
      | none =>
        simp only [hmid] at h
        rw [Except.ok.injEq] at h
        subst h
        refine ⟨⟨hw1, hw2, hsubswf.1, hsubswf.2.1, hsubswf.2.2⟩, ?_⟩
        intro m hm'
        obtain ⟨e1, e2, e3, e4, e5, e6⟩ := hi m hm'
        have hnolink : (sub.memberId = some m.id) → False := by
          rw [hmid]; intro hc; cases hc
        refine ⟨?_, ?_, ?_, ?_, ?_, ?_⟩ <;>
          rw [hsumdelta] <;>
          simp [savingsContrib, finesContrib, statusContrib, linkContrib, markRejected,
                hmid, e1, e2, e3, e4, e5, e6]
      | some mid =>
        simp only [hmid] at h
        split at h
        · rw [Except.ok.injEq] at h
          subst h
          constructor
          · refine ⟨?_, ?_, hsubswf.1, hsubswf.2.1, ?_⟩
            · intro y hy
              simp only [updateMemberRec] at hy
              rcases mem_map_update Member.id mid rejectBump _ y hy with ⟨x, hx, rfl⟩
              by_cases hxid : x.id = mid
              · rw [if_pos hxid]; exact hw1 x hx
              · rw [if_neg hxid]; exact hw1 x hx
            · simp only [updateMemberRec]
              rw [map_update_map_idOf Member.id mid rejectBump (fun x => rfl) db.members]
              exact hw2
            · intro t ht mid' hmid'
              simp only [updateMemberRec]
              rw [map_update_map_idOf Member.id mid rejectBump (fun x => rfl) db.members]
              exact hsubswf.2.2 t ht mid' hmid'
          · intro y hy
            simp only [updateMemberRec] at hy
            rcases mem_map_update Member.id mid rejectBump _ y hy with ⟨x, hx, rfl⟩
            obtain ⟨e1, e2, e3, e4, e5, e6⟩ := hi x hx
            by_cases hxid : x.id = mid
            · rw [if_pos hxid]
              refine ⟨?_, ?_, ?_, ?_, ?_, ?_⟩
              all_goals rw [hsumdelta]
              all_goals simp [savingsContrib, finesContrib, statusContrib, linkContrib,
                markRejected, rejectBump, hmid, hxid, hpend, e1, e2, e3, e4, e5, e6]
              all_goals try ring
            · rw [if_neg hxid]
              have hne : ¬ mid = x.id := fun he => hxid he.symm
              refine ⟨?_, ?_, ?_, ?_, ?_, ?_⟩ <;>
                rw [hsumdelta] <;>
                simp [savingsContrib, finesContrib, statusContrib, linkContrib,
                      markRejected, hmid, hne, e1, e2, e3, e4, e5, e6]
        · exact absurd h (by simp)

end Part006

namespace Part006

/-- Every reachable state of the dual-store engine is well-formed and
satisfies the ledger consistency invariant. -/
theorem reachable_wfInv {s : Settings} {db : DB} (h : Reachable s db) :
    Wf db ∧ LedgerInv db := by
  induction h with
  | init => exact wfInv_empty
  | register _ hop ih => exact wfInv_register ih.1 ih.2 hop
  | submit _ hop ih => exact wfInv_submit ih.1 ih.2 hop
  | approve _ hop ih => exact wfInv_approve ih.1 ih.2 hop
  | reject _ hop ih => exact wfInv_reject ih.1 ih.2 hop

end Part006

/-! ## Idempotent keyed updates -/

theorem map_update_idem {α : Type} (idOf : α → Nat) (key : Nat) (g : α → α)
    (hgg : ∀ x, g (g x) = g x) (hid : ∀ x, idOf (g x) = idOf x) (l : List α) :
    ((l.map (fun x => if idOf x = key then g x else x)).map
        (fun x => if idOf x = key then g x else x))
      = l.map (fun x => if idOf x = key then g x else x) := by
  induction l with
  | nil => rfl
  | cons a rest ih =>
    by_cases h : idOf a = key
    · simp only [List.map_cons, if_pos h, if_pos ((hid a).trans h), hgg, ih]
    · simp only [List.map_cons, if_neg h, ih]

/-! ## The recalculation operation of the single-store engine -/

namespace SubmitPop

def savingsContrib (mid : Nat) (s : Submission) : Int :=
  if s.memberId = some mid ∧ s.status = Status.verified then s.amount else 0

def finesContrib (mid : Nat) (s : Submission) : Int :=
  if s.memberId = some mid ∧ s.status = Status.verified then s.fineAmount else 0

def statusContrib (mid : Nat) (st : Status) (s : Submission) : Int :=
  if s.memberId = some mid ∧ s.status = st then 1 else 0

def linkContrib (mid : Nat) (s : Submission) : Int :=
  if s.memberId = some mid then 1 else 0

def sumOver (f : Submission → Int) (subs : List Submission) : Int := (subs.map f).sum

/-- The forEach accumulation computes exactly the per-member sums. -/
theorem tally_eq_sums (mid : Nat) (l : List Submission) :
    tally (l.filter (fun t => t.memberId = some mid))
      = (sumOver (savingsContrib mid) l, sumOver (finesContrib mid) l,
         sumOver (statusContrib mid Status.verified) l,
         sumOver (statusContrib mid Status.pending) l,
         sumOver (statusContrib mid Status.rejected) l) := by
  induction l with
  | nil => rfl
  | cons a rest ih =>
    by_cases h : a.memberId = some mid
    · cases hst : a.status <;>
        simp [List.filter_cons, h, hst, tally, ih, sumOver, savingsContrib,
              finesContrib, statusContrib, Prod.ext_iff, add_comm]
    · simp [List.filter_cons, h, ih, sumOver, savingsContrib,
            finesContrib, statusContrib, Prod.ext_iff]

/-- The statistics recalculateMemberStats computes for one member: sums over
that member's verified submissions, per-status counts, total count, and
eligibility from the fresh total. -/
def recalcStats (db : DB) (mid : Nat) : Stats :=
  { totalSavings := sumOver (savingsContrib mid) db.submissions,
    totalFines := sumOver (finesContrib mid) db.submissions,
    submissionCount :=
      ((db.submissions.filter (fun t => t.memberId = some mid)).length : Int),
    verifiedCount := sumOver (statusContrib mid Status.verified) db.submissions,
    pendingCount := sumOver (statusContrib mid Status.pending) db.submissions,
    rejectedCount := sumOver (statusContrib mid Status.rejected) db.submissions,
    qualifiesForInterest :=
      decide (sumOver (savingsContrib mid) db.submissions ≥ interestEligibilityMin) }

/-- Inversion of a successful recalculation: the returned statistics are the
recomputed sums, and the member document is overwritten with exactly them. -/
theorem recalculateMemberStats_ok {db : DB} {mid : Nat} {m : Member}
    (hgm : getMember db mid = some m) :
    recalculateMemberStats db mid =
      .ok ({ db with members :=
               updateMemberRec db.members mid (overwriteStats (recalcStats db mid)) },
           recalcStats db mid) := by
  simp only [recalculateMemberStats, hgm]
  rw [tally_eq_sums]
  rfl

end SubmitPop

namespace SubmitPop

/-- Recalculation touches only the recalculated member document. -/
theorem recalculateMemberStats_frame {db : DB} {mid : Nat} {m : Member}
    (hgm : getMember db mid = some m) :
    ∃ db1, recalculateMemberStats db mid = .ok (db1, recalcStats db mid) ∧
      db1.submissions = db.submissions ∧
      db1.members.map Member.id = db.members.map Member.id := by
  refine ⟨_, recalculateMemberStats_ok hgm, rfl, ?_⟩
  simp only [updateMemberRec]
  exact map_update_map_idOf Member.id mid (overwriteStats (recalcStats db mid))
    (fun x => rfl) db.members

/-- A second recalculation with unchanged submissions returns the same
statistics and leaves the state fixed. -/
theorem recalculateMemberStats_idem {db : DB} {mid : Nat} {m : Member}
    (hgm : getMember db mid = some m) :
    ∃ db1, recalculateMemberStats db mid = .ok (db1, recalcStats db mid) ∧
      recalculateMemberStats db1 mid = .ok (db1, recalcStats db mid) := by
  refine ⟨_, recalculateMemberStats_ok hgm, ?_⟩
  have hgm1 : getMember
      ({ db with members :=
          updateMemberRec db.members mid (overwriteStats (recalcStats db mid)) } : DB) mid
      = some (overwriteStats (recalcStats db mid) m) := by
    show (updateMemberRec db.members mid
        (overwriteStats (recalcStats db mid))).find? (fun x => Member.id x = mid)
      = some (overwriteStats (recalcStats db mid) m)
    simp only [updateMemberRec]
    rw [find?_map_update Member.id mid (overwriteStats (recalcStats db mid))
      (fun x => rfl) db.members]
    rw [show db.members.find? (fun x => Member.id x = mid) = some m from hgm]
    rfl
  have h2 := recalculateMemberStats_ok hgm1
  have hstatseq : recalcStats
      ({ db with members :=
          updateMemberRec db.members mid (overwriteStats (recalcStats db mid)) } : DB) mid
      = recalcStats db mid := rfl
  rw [hstatseq] at h2
  rw [h2]
  have hidem : updateMemberRec
      (updateMemberRec db.members mid (overwriteStats (recalcStats db mid))) mid
      (overwriteStats (recalcStats db mid))
      = updateMemberRec db.members mid (overwriteStats (recalcStats db mid)) := by
    simp only [updateMemberRec]
    exact map_update_idem Member.id mid (overwriteStats (recalcStats db mid))
      (fun x => rfl) (fun x => rfl) db.members
  simp only [updateMemberRec] at hidem
  simp only [updateMemberRec, hidem]

end SubmitPop

namespace SubmitPop

/-- A member id present in the store can always be recalculated, and the
member-id sequence survives. -/
theorem recalc_ok_of_mem {db : DB} {mid : Nat}
    (hm : mid ∈ db.members.map Member.id) :
    ∃ db1 stats, recalculateMemberStats db mid = .ok (db1, stats) ∧
      db1.members.map Member.id = db.members.map Member.id := by
  rcases find?_isSome_of_mem_map Member.id hm with ⟨m, hfind⟩
  have hgm : getMember db mid = some m := hfind
  rcases recalculateMemberStats_frame hgm with ⟨db1, hok, -, hids⟩
  exact ⟨db1, recalcStats db mid, hok, hids⟩

/-- The sequential loop succeeds on any snapshot of existing member ids and
counts every one of them. -/
theorem recalcLoop_ok (mids : List Nat) : ∀ (db : DB) (count : Nat),
    (∀ mid ∈ mids, mid ∈ db.members.map Member.id) →
    ∃ db1, recalcLoop (fun a b => recalculateMemberStats a b) db mids count
      = .ok (db1, count + mids.length) := by
  induction mids with
  | nil => intro db count _; exact ⟨db, rfl⟩
  | cons mid rest ih =>
    intro db count h
    rcases recalc_ok_of_mem (h mid (List.mem_cons_self mid rest)) with
      ⟨db1, stats, hok, hids⟩
    have hrest : ∀ m ∈ rest, m ∈ db1.members.map Member.id := by
      intro m hm'
      rw [hids]
      exact h m (List.mem_cons_of_mem mid hm')
    rcases ih db1 (count + 1) hrest with ⟨db2, hloop⟩
    refine ⟨db2, ?_⟩
    simp only [recalcLoop, hok, hloop]
    congr 1
    rw [Prod.mk.injEq]
    refine ⟨rfl, ?_⟩
    simp [List.length_cons]
    omega

/-- recalculateAllMemberStats succeeds and returns the number of members. -/
theorem recalculateAllMemberStats_ok (db : DB) :
    ∃ db1, recalculateAllMemberStats db = .ok (db1, db.members.length) := by
  rcases recalcLoop_ok (db.members.map Member.id) db 0 (fun mid hm => hm) with ⟨db1, h⟩
  refine ⟨db1, ?_⟩
  simpa [recalculateAllMemberStats] using h

/-- The loop aborts at the first failing member and surfaces that error:
no later member is processed and the caller sees the exception. -/
theorem recalcLoop_propagates (step : DB → Nat → Except String (DB × Stats))
    (db : DB) (mid : Nat) (rest : List Nat) (count : Nat) (e : String)
    (hfail : step db mid = .error e) :
    recalcLoop step db (mid :: rest) count = .error e := by
  simp only [recalcLoop, hfail]

end SubmitPop

/-- A keyed pointwise update preserves any projection the update preserves. -/
theorem map_update_map_proj {α β : Type} (idOf : α → Nat) (proj : α → β) (key : Nat)
    (g : α → α) (hg : ∀ x, proj (g x) = proj x) (l : List α) :
    (l.map (fun x => if idOf x = key then g x else x)).map proj = l.map proj := by
  induction l with
  | nil => rfl
  | cons a rest ih =>
    by_cases h : idOf a = key <;> simp [h, hg, ih]

namespace Part006

/-- Inversion of a successful approval: the guards held, the submission list
was flipped at the approved submission, and a positive fine was routed to the
payment-period year bucket. -/
theorem approveSubmission_ok {s : Settings} {nowYear : Int} {db : DB} {sid : Nat} {db1 : DB}
    (h : approveSubmission s nowYear db sid = .ok db1) :
    ∃ sub, getSubmission db sid = some sub ∧ sub.status = Status.pending ∧
      db1.submissions = updateSubRec db.submissions sid markVerified ∧
      db1.pool = (if sub.fineAmount > 0
        then poolAdd db.pool (toString (extractYearFromMonth nowYear sub.paymentMonth))
               sub.fineAmount
        else db.pool) := by
  simp only [approveSubmission] at h
  split at h
  · exact absurd h (by simp)
  · rename_i sub hsub
    split at h
    · exact absurd h (by simp)
    · rename_i hstat
      have hpend : sub.status = Status.pending := by
        by_contra hc
        exact hstat (by simpa using hc)
      rw [Except.ok.injEq] at h
      subst h
      exact ⟨sub, hsub, hpend, rfl, rfl⟩

/-- Inversion of a successful rejection. -/
theorem rejectSubmission_ok {db : DB} {sid : Nat} {reason : String} {db1 : DB}
    (h : rejectSubmission db sid reason = .ok db1) :
    ∃ sub, getSubmission db sid = some sub ∧ sub.status = Status.pending ∧
      db1.submissions = updateSubRec db.submissions sid (markRejected reason) ∧
      db1.pool = db.pool := by
  simp only [rejectSubmission] at h
  split at h
  · exact absurd h (by simp)
  · rename_i sub hsub
    split at h
    · exact absurd h (by simp)
    · rename_i hstat
      have hpend : sub.status = Status.pending := by
        by_contra hc
        exact hstat (by simpa using hc)
      cases hmid : sub.memberId with
      | none =>
        simp only [hmid] at h
        rw [Except.ok.injEq] at h
        subst h
        exact ⟨sub, hsub, hpend, rfl, rfl⟩
      | some mid =>
        simp only [hmid] at h
        split at h
        · rw [Except.ok.injEq] at h
          subst h
          exact ⟨sub, hsub, hpend, rfl, rfl⟩
        · exact absurd h (by simp)

/-- The non-pending guard of both admin operations: a submission that is not
pending makes approve and reject throw before any write. -/
theorem nonpending_guard {db : DB} {sid : Nat} {sub : Submission}
    (hsub : getSubmission db sid = some sub) (hstat : sub.status ≠ Status.pending)
    (s : Settings) (nowYear : Int) (reason : String) :
    approveSubmission s nowYear db sid = .error "Submission already processed" ∧
    rejectSubmission db sid reason = .error "Submission already processed" := by
  constructor
  · simp only [approveSubmission, hsub]
    rw [if_pos (by simpa using hstat)]
  · simp only [rejectSubmission, hsub]
    rw [if_pos (by simpa using hstat)]

/-- The existence guard: an unknown submission id makes both throw. -/
theorem notfound_guard {db : DB} {sid : Nat}
    (hsub : getSubmission db sid = none)
    (s : Settings) (nowYear : Int) (reason : String) :
    approveSubmission s nowYear db sid = .error "Submission not found" ∧
    rejectSubmission db sid reason = .error "Submission not found" := by
  constructor
  · simp only [approveSubmission, hsub]
  · simp only [rejectSubmission, hsub]

end Part006

namespace SubmitPop

/-- Inversion of a successful approval in the single-store variant: no status
guard is consulted, and the stored memberId is overwritten with the
caller-supplied argument. -/
theorem approveSubmissionSingle_ok {nowYear : Int} {db : DB} {sid : Nat}
    {memberIdArg : Option Nat} {db1 : DB}
    (h : approveSubmission nowYear db sid memberIdArg = .ok db1) :
    ∃ sub, getSubmission db sid = some sub ∧
      db1.submissions = updateSubRec db.submissions sid (markVerifiedAs memberIdArg) ∧
      db1.pool = (if sub.fineAmount > 0
        then poolAdd db.pool (paymentYearKey nowYear sub.paymentMonth) sub.fineAmount
        else db.pool) := by
  simp only [approveSubmission] at h
  split at h
  · exact absurd h (by simp)
  · rename_i sub hsub
    cases hma : memberIdArg with
    | none =>
      simp only [hma] at h
      rw [Except.ok.injEq] at h
      subst h
      exact ⟨sub, hsub, rfl, rfl⟩
    | some mid =>
      simp only [hma] at h
      split at h
      · exact absurd h (by simp)
      · rename_i m0 hgm
        rw [Except.ok.injEq] at h
        subst h
        exact ⟨sub, hsub, rfl, rfl⟩

/-- Inversion of a successful rejection in the single-store variant: no
status guard; the stored memberId field is untouched. -/
theorem rejectSubmissionSingle_ok {db : DB} {sid : Nat} {reason : String} {db1 : DB}
    (h : rejectSubmission db sid reason = .ok db1) :
    ∃ sub, getSubmission db sid = some sub ∧
      db1.submissions = updateSubRec db.submissions sid (markRejected reason) := by
  simp only [rejectSubmission] at h
  split at h
  · exact absurd h (by simp)
  · rename_i sub hsub
    cases hmid : sub.memberId with
    | none =>
      simp only [hmid] at h
      rw [Except.ok.injEq] at h
      subst h
      exact ⟨sub, hsub, rfl⟩
    | some mid =>
      simp only [hmid] at h
      split at h
      · rw [Except.ok.injEq] at h
        subst h
        exact ⟨sub, hsub, rfl⟩
      · exact absurd h (by simp)

end SubmitPop

namespace Part006

/-- verifyMemberLogin succeeds with exactly the member found by phone whose
stored digest equals the digest of the supplied password. -/
theorem verifyMemberLogin_iff (db : DB) (phone password : String) (m : Member) :
    verifyMemberLogin db phone password = some m ↔
      (getMemberByPhone db phone = some m ∧ m.passwordHash = hashPassword password) := by
  cases hp : getMemberByPhone db phone with
  | none => simp [verifyMemberLogin, hp]
  | some m0 =>
    simp only [verifyMemberLogin, hp]
    by_cases hh : m0.passwordHash = hashPassword password
    · rw [if_neg (by simp [hh])]
      constructor
      · intro he
        cases he
        exact ⟨rfl, hh⟩
      · intro he
        exact he.1
    · rw [if_pos hh]
      constructor
      · intro hc
        cases hc
      · intro he
        obtain ⟨he1, he2⟩ := he
        cases he1
        exact absurd he2 hh

end Part006

theorem sum_map_split {α : Type} (g h : α → Int) (l : List α) :
    (l.map (fun x => g x + h x)).sum = (l.map g).sum + (l.map h).sum := by
  induction l with
  | nil => rfl
  | cons a rest ih => simp [ih]; ring

theorem assocSet_assocSet {β : Type} (st : List (String × β)) (k : String) (r r' : β) :
    assocSet (assocSet st k r) k r' = assocSet st k r' := by
  induction st with
  | nil => simp [assocSet]
  | cons a rest ih =>
    obtain ⟨k0, r0⟩ := a
    by_cases h : k0 = k
    · subst h; simp [assocSet]
    · simp [assocSet, h, ih]

namespace Part006

/-- Inversion of a successful submission: a pending record is appended whose
member link is the phone lookup performed at submit time. -/
theorem submitPOP_ok {s : Settings} {db : DB} {d : SubmitData} {db1 : DB} {sid : Nat}
    (h : submitPOP s db d = .ok (db1, sid)) :
    ∃ sub : Submission, db1.submissions = db.submissions ++ [sub] ∧
      sub.status = Status.pending ∧
      sub.memberId = (getMemberByPhone db (stripSpacesDashes d.phone)).map Member.id := by
  simp only [submitPOP] at h
  split at h
  · exact absurd h (by simp)
  · split at h
    · exact absurd h (by simp)
    · rw [Except.ok.injEq, Prod.mk.injEq] at h
      obtain ⟨h1, -⟩ := h
      subst h1
      exact ⟨_, rfl, rfl, rfl⟩

end Part006

namespace SubmitPop

/-- Inversion of a successful submission in the single-store variant. -/
theorem submitPOPSingle_ok {db : DB} {d : SubmitData} {db1 : DB} {sid : Nat}
    (h : submitPOP db d = .ok (db1, sid)) :
    ∃ sub : Submission, db1.submissions = db.submissions ++ [sub] ∧
      sub.status = Status.pending ∧
      sub.memberId = (getMemberByPhone db (stripSpacesDashes d.phone)).map Member.id := by
  simp only [submitPOP] at h
  rw [Except.ok.injEq, Prod.mk.injEq] at h
  obtain ⟨h1, -⟩ := h
  subst h1
  exact ⟨_, rfl, rfl, rfl⟩

end SubmitPop

namespace SMSNew

/-- Issue an OTP, then verify a wrong code three times, then the right code. -/
def exhaustScenario (tIssue t1 t2 t3 t4 : Int) (st : OtpStore) (phone otp wrong : String) :
    Bool × OtpStore :=
  let st0 := (sendPasswordResetOTP tIssue st phone otp).2
  let st1 := (verifyOTP t1 st0 phone wrong).2
  let st2 := (verifyOTP t2 st1 phone wrong).2
  let st3 := (verifyOTP t3 st2 phone wrong).2
  verifyOTP t4 st3 phone otp

end SMSNew

/-! ## Demonstration runs used by witnesses and counterexamples -/

def regDataA : Part006.RegData :=
  { name := "Thandi M", phone := "073 123-4567", idNumber := "8001015009087",
    password := "sunrise299" }

def p6db1 : Part006.DB :=
  match Part006.registerMember Part006.DB.empty regDataA with
  | .ok (db, _) => db
  | .error _ => Part006.DB.empty

def p6subData : Part006.SubmitData :=
  { name := "Thandi M", phone := "0731234567", amount := some 400, paymentDay := 10,
    paymentMonth := "December 2024" }

def p6db2 : Part006.DB :=
  match Part006.submitPOP Part006.repoSettings p6db1 p6subData with
  | .ok (db, _) => db
  | .error _ => Part006.DB.empty

def p6db3 : Part006.DB :=
  match Part006.approveSubmission Part006.repoSettings 2025 p6db2 0 with
  | .ok db => db
  | .error _ => Part006.DB.empty

def p6dbRej : Part006.DB :=
  match Part006.rejectSubmission p6db2 0 "blurry proof" with
  | .ok db => db
  | .error _ => Part006.DB.empty

theorem p6step1 : Part006.registerMember Part006.DB.empty regDataA = .ok (p6db1, 0) := rfl

theorem p6step2 :
    Part006.submitPOP Part006.repoSettings p6db1 p6subData = .ok (p6db2, 0) := rfl

theorem p6step3 :
    Part006.approveSubmission Part006.repoSettings 2025 p6db2 0 = .ok p6db3 := rfl

theorem p6db3_reachable : Part006.Reachable Part006.repoSettings p6db3 :=
  Part006.Reachable.approve
    (Part006.Reachable.submit
      (Part006.Reachable.register Part006.Reachable.init p6step1)
      p6step2)
    p6step3

def spReg : SubmitPop.RegData :=
  { name := "Thandi M", phone := "0731234567", idNumber := "8001015009087",
    password := "sunrise299" }

def spdb1 : SubmitPop.DB :=
  match SubmitPop.registerMember SubmitPop.DB.empty spReg with
  | .ok (db, _) => db
  | .error _ => SubmitPop.DB.empty

/-- A late submission (day 10 > 7) whose payment-period label is a bare
4-digit year with no space separator. -/
def spSubData : SubmitPop.SubmitData :=
  { name := "Thandi M", phone := "0731234567", amount := 300, paymentDay := 10,
    paymentMonth := "2024" }

def spdb2 : SubmitPop.DB :=
  match SubmitPop.submitPOP spdb1 spSubData with
  | .ok (db, _) => db
  | .error _ => SubmitPop.DB.empty

def spdb3 : SubmitPop.DB :=
  match SubmitPop.approveSubmission 2025 spdb2 0 (some 0) with
  | .ok db => db
  | .error _ => SubmitPop.DB.empty

def spdb4 : SubmitPop.DB :=
  match SubmitPop.approveSubmission 2025 spdb3 0 (some 0) with
  | .ok db => db
  | .error _ => SubmitPop.DB.empty

def spdb3n : SubmitPop.DB :=
  match SubmitPop.approveSubmission 2025 spdb2 0 none with
  | .ok db => db
  | .error _ => SubmitPop.DB.empty

def spdb3r : SubmitPop.DB :=
  match SubmitPop.rejectSubmission spdb3 0 "duplicate" with
  | .ok db => db
  | .error _ => SubmitPop.DB.empty

def spdbRej : SubmitPop.DB :=
  match SubmitPop.rejectSubmission spdb2 0 "blurry proof" with
  | .ok db => db
  | .error _ => SubmitPop.DB.empty

def spSubZero : SubmitPop.SubmitData :=
  { name := "Guest P", phone := "0820000000", amount := 0, paymentDay := 5,
    paymentMonth := "December 2024" }

def spdbZ : SubmitPop.DB :=
  match SubmitPop.submitPOP spdb1 spSubZero with
  | .ok (db, _) => db
  | .error _ => SubmitPop.DB.empty

/-- The intended configuration of the dual-store variant (deadline day 7,
late fee R50, minimum R300): used to exercise the general settings model. -/
def lateSettings : Part006.Settings :=
  { paymentDeadlineDay := some 7, lateFee := some 50, minimumContribution := some 300,
    interestEligibilityMin := 10000 }

def p6Ldb1 : Part006.DB :=
  match Part006.registerMember Part006.DB.empty regDataA with
  | .ok (db, _) => db
  | .error _ => Part006.DB.empty

def p6LsubData : Part006.SubmitData :=
  { name := "Thandi M", phone := "0731234567", amount := some 400, paymentDay := 10,
    paymentMonth := "December 2024" }

def p6Ldb2 : Part006.DB :=
  match Part006.submitPOP lateSettings p6Ldb1 p6LsubData with
  | .ok (db, _) => db
  | .error _ => Part006.DB.empty

def dummySub : Part006.Submission :=
  { id := 999, memberId := none, name := "", phone := "", amount := 0, fineAmount := 0,
    isLate := false, paymentMonth := "", paymentDay := 1, status := .pending,
    rejectionReason := none }

def p6Lsub : Part006.Submission := (Part006.getSubmission p6Ldb2 0).getD dummySub

def spDummyMember : SubmitPop.Member :=
  { id := 999, phone := "", idNumber := "", passwordHash := "", status := "",
    totalSavings := 0, totalFines := 0, submissionCount := 0, verifiedCount := 0,
    pendingCount := 0, rejectedCount := 0, qualifiesForInterest := false,
    lastPaymentMonth := none, skippedMonths := 0 }

def spMember2 : SubmitPop.Member := (SubmitPop.getMember spdb2 0).getD spDummyMember

def p6DummyMember : Part006.Member :=
  { id := 999, phone := "", idNumber := "", passwordHash := "", status := "",
    totalSavings := 0, totalFines := 0, submissionCount := 0, verifiedCount := 0,
    pendingCount := 0, rejectedCount := 0, qualifiesForInterest := false,
    lastPaymentMonth := none, consecutiveMonths := 0, skippedMonths := 0 }

def p6m3 : Part006.Member := (Part006.getMember p6db3 0).getD p6DummyMember

def otpStore0 : SMSOld.OtpStore :=
  (SMSOld.sendPasswordResetOTP 0 [] "0731234567" "123456").2

def otpStore1 : SMSOld.OtpStore := (SMSOld.verifyOTP 60000 otpStore0 "0731234567" "999999").2

def otpStore2 : SMSOld.OtpStore := (SMSOld.verifyOTP 120000 otpStore1 "0731234567" "999999").2

def otpStore3 : SMSOld.OtpStore := (SMSOld.verifyOTP 180000 otpStore2 "0731234567" "999999").2

/-! ## The claims -/

theorem p6m3_mem : p6m3 ∈ p6db3.members := by
  rw [show p6db3.members = [p6m3] from rfl]
  exact List.mem_singleton_self _

/-- C1: in the dual-store engine (part_006), whose approve and reject enforce
the pending precondition, every state reachable by register/submit/approve/
reject satisfies the ledger invariant: each member's totalSavings is the sum
of the amounts of that member's verified submissions, and totalFines the sum
of their fineAmounts.  The single-store variant violates the claim as stated
(see the counterexample): its approve has no pending guard, so a second
approval of the same submission re-adds the amounts. -/
theorem c1_totals_match_verified_sums {s : Part006.Settings} {db : Part006.DB}
    (h : Part006.Reachable s db) :
    ∀ m ∈ db.members,
      m.totalSavings = Part006.sumOver (Part006.savingsContrib m.id) db.submissions ∧
      m.totalFines = Part006.sumOver (Part006.finesContrib m.id) db.submissions := by
  intro m hm
  obtain ⟨e1, e2, -, -, -, -⟩ := (Part006.reachable_wfInv h).2 m hm
  exact ⟨e1, e2⟩

theorem c1_witness :
    Part006.Reachable Part006.repoSettings p6db3 ∧ p6m3 ∈ p6db3.members ∧
    (p6m3.totalSavings = Part006.sumOver (Part006.savingsContrib p6m3.id) p6db3.submissions ∧
     p6m3.totalFines = Part006.sumOver (Part006.finesContrib p6m3.id) p6db3.submissions) :=
  ⟨p6db3_reachable, p6m3_mem,
   c1_totals_match_verified_sums p6db3_reachable p6m3 p6m3_mem⟩

/-- C1 counterexample: in the single-store variant, one register, one submit
and two approvals of the same submission leave the member's totalSavings at
600 while that member's verified submissions sum to 300. -/
theorem c1_counterexample :
    SubmitPop.registerMember SubmitPop.DB.empty spReg = .ok (spdb1, 0) ∧
    SubmitPop.submitPOP spdb1 spSubData = .ok (spdb2, 0) ∧
    SubmitPop.approveSubmission 2025 spdb2 0 (some 0) = .ok spdb3 ∧
    SubmitPop.approveSubmission 2025 spdb3 0 (some 0) = .ok spdb4 ∧
    (SubmitPop.getMember spdb4 0).map SubmitPop.Member.totalSavings = some 600 ∧
    SubmitPop.sumOver (SubmitPop.savingsContrib 0) spdb4.submissions = 300 := by
  refine ⟨rfl, rfl, rfl, rfl, ?_, ?_⟩ <;> decide

/-- C2: in the dual-store engine, approve and reject demand an existing
pending submission: a missing id throws the not-found error and a non-pending
submission throws the already-processed error, in both cases before any batch
write, so the state is untouched (errors in this sequential embedding carry
no state).  The single-store variant checks only existence - see the
counterexample, in which approving and rejecting an already-verified
submission both succeed and mutate the member's aggregates again. -/
theorem c2_processed_guard (db : Part006.DB) (sid : Nat) (s : Part006.Settings)
    (nowYear : Int) (reason : String) :
    (∀ sub, Part006.getSubmission db sid = some sub → sub.status ≠ Status.pending →
      Part006.approveSubmission s nowYear db sid = .error "Submission already processed" ∧
      Part006.rejectSubmission db sid reason = .error "Submission already processed") ∧
    (Part006.getSubmission db sid = none →
      Part006.approveSubmission s nowYear db sid = .error "Submission not found" ∧
      Part006.rejectSubmission db sid reason = .error "Submission not found") :=
  ⟨fun _sub hsub hstat => Part006.nonpending_guard hsub hstat s nowYear reason,
   fun hnone => Part006.notfound_guard hnone s nowYear reason⟩

def p6sub3 : Part006.Submission := (Part006.getSubmission p6db3 0).getD dummySub

theorem c2_witness :
    (Part006.getSubmission p6db3 0 = some p6sub3 ∧ p6sub3.status ≠ Status.pending ∧
      Part006.approveSubmission Part006.repoSettings 2026 p6db3 0
        = .error "Submission already processed" ∧
      Part006.rejectSubmission p6db3 0 "late" = .error "Submission already processed") ∧
    (Part006.getSubmission p6db3 7 = none ∧
      Part006.approveSubmission Part006.repoSettings 2026 p6db3 7
        = .error "Submission not found" ∧
      Part006.rejectSubmission p6db3 7 "late" = .error "Submission not found") := by
  have h := c2_processed_guard p6db3 0 Part006.repoSettings 2026 "late"
  have h7 := c2_processed_guard p6db3 7 Part006.repoSettings 2026 "late"
  have hs : Part006.getSubmission p6db3 0 = some p6sub3 := rfl
  have hst : p6sub3.status ≠ Status.pending := by decide
  have hn : Part006.getSubmission p6db3 7 = none := rfl
  exact ⟨⟨hs, hst, (h.1 p6sub3 hs hst).1, (h.1 p6sub3 hs hst).2⟩,
         ⟨hn, (h7.2 hn).1, (h7.2 hn).2⟩⟩

/-- C2 counterexample: the single-store approve and reject accept a
submission that is already verified; the repeated approval succeeds and
raises the member's totalSavings again, and the rejection succeeds and flips
a verified submission to rejected. -/
theorem c2_counterexample :
    (SubmitPop.getSubmission spdb3 0).map SubmitPop.Submission.status
      = some Status.verified ∧
    SubmitPop.approveSubmission 2025 spdb3 0 (some 0) = .ok spdb4 ∧
    (SubmitPop.getMember spdb3 0).map SubmitPop.Member.totalSavings = some 300 ∧
    (SubmitPop.getMember spdb4 0).map SubmitPop.Member.totalSavings = some 600 ∧
    SubmitPop.rejectSubmission spdb3 0 "duplicate" = .ok spdb3r ∧
    (SubmitPop.getSubmission spdb3r 0).map SubmitPop.Submission.status
      = some Status.rejected := by
  refine ⟨?_, rfl, ?_, ?_, rfl, ?_⟩ <;> decide

/-- C3: in the dual-store engine, after any reachable sequence of operations
each member's submissionCount equals verifiedCount + pendingCount +
rejectedCount.  The single-store variant violates the claim as stated (see
the counterexample): its submit increments pendingCount but not
submissionCount, which that variant only increments at approval. -/
theorem c3_submission_count_split {s : Part006.Settings} {db : Part006.DB}
    (h : Part006.Reachable s db) :
    ∀ m ∈ db.members,
      m.submissionCount = m.verifiedCount + m.pendingCount + m.rejectedCount := by
  intro m hm
  obtain ⟨-, -, e3, e4, e5, e6⟩ := (Part006.reachable_wfInv h).2 m hm
  rw [e3, e4, e5, e6]
  have hpoint : ∀ t : Part006.Submission,
      Part006.linkContrib m.id t
        = (fun x => Part006.statusContrib m.id Status.verified x
            + Part006.statusContrib m.id Status.pending x) t
          + Part006.statusContrib m.id Status.rejected t := by
    intro t
    by_cases hmem : t.memberId = some m.id
    · cases ht : t.status <;>
        simp [Part006.linkContrib, Part006.statusContrib, hmem, ht]
    · simp [Part006.linkContrib, Part006.statusContrib, hmem]
  simp only [Part006.sumOver]
  calc (db.submissions.map (Part006.linkContrib m.id)).sum
      = (db.submissions.map (fun t =>
          (fun x => Part006.statusContrib m.id Status.verified x
            + Part006.statusContrib m.id Status.pending x) t
          + Part006.statusContrib m.id Status.rejected t)).sum := by
        exact congrArg List.sum (List.map_congr_left (fun t _ => hpoint t))
    _ = (db.submissions.map (fun x => Part006.statusContrib m.id Status.verified x
          + Part006.statusContrib m.id Status.pending x)).sum
        + (db.submissions.map (Part006.statusContrib m.id Status.rejected)).sum :=
        sum_map_split _ _ db.submissions
    _ = (db.submissions.map (Part006.statusContrib m.id Status.verified)).sum
        + (db.submissions.map (Part006.statusContrib m.id Status.pending)).sum
        + (db.submissions.map (Part006.statusContrib m.id Status.rejected)).sum := by
        rw [sum_map_split]

theorem c3_witness :
    Part006.Reachable Part006.repoSettings p6db3 ∧ p6m3 ∈ p6db3.members ∧
    p6m3.submissionCount = p6m3.verifiedCount + p6m3.pendingCount + p6m3.rejectedCount :=
  ⟨p6db3_reachable, p6m3_mem,
   c3_submission_count_split p6db3_reachable p6m3 p6m3_mem⟩

/-- C3 counterexample: in the single-store variant, right after a linked
submission is submitted (and still pending) the member document reads
submissionCount 0 but pendingCount 1, so 0 = 0 + 1 + 0 fails. -/
theorem c3_counterexample :
    SubmitPop.registerMember SubmitPop.DB.empty spReg = .ok (spdb1, 0) ∧
    SubmitPop.submitPOP spdb1 spSubData = .ok (spdb2, 0) ∧
    (SubmitPop.getMember spdb2 0).map
        (fun m => (m.submissionCount, m.verifiedCount, m.pendingCount, m.rejectedCount))
      = some (0, 0, 1, 0) ∧
    (0 : Int) ≠ 0 + 1 + 0 := by
  refine ⟨rfl, rfl, ?_, ?_⟩ <;> decide

/-- C4 (amended): Database.submitPOP rejects no amount for being
non-positive in either variant.  The single-store submit stores any numeric
amount unvalidated (positivity is checked only by the page form).  The
dual-store submit throws exactly for a NaN amount or an amount below the
minimumContribution configuration key - and since that key is absent from
the shipped APP_SETTINGS the comparison never fires, so with the repository
settings only NaN is rejected and zero or negative amounts pass. -/
theorem c4_no_amount_validation :
    (∀ (db : SubmitPop.DB) (d : SubmitPop.SubmitData),
      ∃ db1 sid, SubmitPop.submitPOP db d = .ok (db1, sid)) ∧
    (∀ (s : Part006.Settings) (db : Part006.DB) (d : Part006.SubmitData),
      (∃ e, Part006.submitPOP s db d = .error e) ↔
        (d.amount = none ∨
         ∃ a, d.amount = some a ∧ jsLtOpt a s.minimumContribution = true)) ∧
    (∀ (db : Part006.DB) (d : Part006.SubmitData) (a : Int), d.amount = some a →
      ∃ db1 sid, Part006.submitPOP Part006.repoSettings db d = .ok (db1, sid)) := by
  refine ⟨?_, ?_, ?_⟩
  · intro db d
    exact ⟨_, _, rfl⟩
  · intro s db d
    cases hamt : d.amount with
    | none =>
      constructor
      · intro _
        exact Or.inl rfl
      · intro _
        refine ⟨"Minimum contribution not met", ?_⟩
        simp only [Part006.submitPOP, hamt]
    | some a =>
      by_cases hmin : jsLtOpt a s.minimumContribution = true
      · constructor
        · intro _
          exact Or.inr ⟨a, rfl, hmin⟩
        · intro _
          refine ⟨"Minimum contribution not met", ?_⟩
          simp only [Part006.submitPOP, hamt]
          rw [if_pos hmin]
      · constructor
        · intro he
          rcases he with ⟨e, he⟩
          simp only [Part006.submitPOP, hamt] at he
          rw [if_neg hmin] at he
          cases he
        · intro hr
          rcases hr with hr | ⟨a2, ha2, hlt⟩
          · cases hr
          · rw [Option.some.injEq] at ha2
            subst ha2
            exact absurd hlt hmin
  · intro db d a hamt
    simp only [Part006.submitPOP, hamt]
    rw [if_neg (by simp [jsLtOpt, Part006.repoSettings])]
    exact ⟨_, _, rfl⟩

/-- Variants of the demo submission data used for the amount-validation
claim: a NaN amount and a zero amount. -/
def p6subNaN : Part006.SubmitData :=
  { name := "Thandi M", phone := "0731234567", amount := none, paymentDay := 10,
    paymentMonth := "December 2024" }

def p6subZero : Part006.SubmitData :=
  { name := "Thandi M", phone := "0731234567", amount := some 0, paymentDay := 10,
    paymentMonth := "December 2024" }

theorem c4_witness :
    (∃ db1 sid, SubmitPop.submitPOP spdb1 spSubZero = .ok (db1, sid)) ∧
    ((∃ e, Part006.submitPOP Part006.repoSettings p6db1 p6subNaN = .error e)
      ↔ (p6subNaN.amount = none ∨
          ∃ a, p6subNaN.amount = some a ∧
            jsLtOpt a Part006.repoSettings.minimumContribution = true)) ∧
    (∃ db1 sid,
      Part006.submitPOP Part006.repoSettings p6db1 p6subZero = .ok (db1, sid)) := by
  have h := c4_no_amount_validation
  exact ⟨h.1 spdb1 spSubZero,
         h.2.1 Part006.repoSettings p6db1 p6subNaN,
         h.2.2 p6db1 p6subZero 0 (by rfl)⟩

/-- C4 counterexample: the single-store submit accepts an amount of zero
outright (no InvalidAmount error), storing the zero-amount submission; the
dual-store submit under the shipped settings accepts it as well. -/
theorem c4_counterexample :
    SubmitPop.submitPOP spdb1 spSubZero = .ok (spdbZ, 0) ∧
    (SubmitPop.getSubmission spdbZ 0).map SubmitPop.Submission.amount = some 0 := by
  exact ⟨rfl, by decide⟩

namespace SubmitPop

/-- Overwriting a member document leaves it retrievable with the new values. -/
theorem getMember_after_overwrite {db : DB} {mid : Nat} {m : Member}
    (hgm : getMember db mid = some m) (stats : Stats) :
    getMember ({ db with
        members := updateMemberRec db.members mid (overwriteStats stats) } : DB) mid
      = some (overwriteStats stats m) := by
  show (updateMemberRec db.members mid (overwriteStats stats)).find?
      (fun x => Member.id x = mid) = some (overwriteStats stats m)
  simp only [updateMemberRec]
  rw [find?_map_update Member.id mid (overwriteStats stats) (fun x => rfl) db.members]
  rw [show db.members.find? (fun x => Member.id x = mid) = some m from hgm]
  rfl

end SubmitPop

/-- C5: recalculateMemberStats rebuilds, from the full set of the member's
submission records, the savings and fine sums over verified submissions, the
per-status counts, the total count of records examined, and the eligibility
flag from the fresh total; it overwrites the member document with exactly
those values, touches no submission record, and a second run with no
intervening changes returns identical output and leaves the state fixed. -/
theorem c5_recalculate_authoritative {db : SubmitPop.DB} {mid : Nat} {m : SubmitPop.Member}
    (hgm : SubmitPop.getMember db mid = some m) :
    ∃ db1,
      SubmitPop.recalculateMemberStats db mid = .ok (db1, SubmitPop.recalcStats db mid) ∧
      (SubmitPop.recalcStats db mid).totalSavings
        = SubmitPop.sumOver (SubmitPop.savingsContrib mid) db.submissions ∧
      (SubmitPop.recalcStats db mid).totalFines
        = SubmitPop.sumOver (SubmitPop.finesContrib mid) db.submissions ∧
      (SubmitPop.recalcStats db mid).verifiedCount
        = SubmitPop.sumOver (SubmitPop.statusContrib mid Status.verified) db.submissions ∧
      (SubmitPop.recalcStats db mid).pendingCount
        = SubmitPop.sumOver (SubmitPop.statusContrib mid Status.pending) db.submissions ∧
      (SubmitPop.recalcStats db mid).rejectedCount
        = SubmitPop.sumOver (SubmitPop.statusContrib mid Status.rejected) db.submissions ∧
      (SubmitPop.recalcStats db mid).submissionCount
        = ((db.submissions.filter (fun t => t.memberId = some mid)).length : Int) ∧
      (SubmitPop.recalcStats db mid).qualifiesForInterest
        = decide ((SubmitPop.recalcStats db mid).totalSavings
            ≥ SubmitPop.interestEligibilityMin) ∧
      db1.submissions = db.submissions ∧
      SubmitPop.getMember db1 mid
        = some (SubmitPop.overwriteStats (SubmitPop.recalcStats db mid) m) ∧
      SubmitPop.recalculateMemberStats db1 mid
        = .ok (db1, SubmitPop.recalcStats db mid) := by
  refine ⟨_, SubmitPop.recalculateMemberStats_ok hgm,
    rfl, rfl, rfl, rfl, rfl, rfl, rfl, rfl,
    SubmitPop.getMember_after_overwrite hgm (SubmitPop.recalcStats db mid), ?_⟩
  rcases SubmitPop.recalculateMemberStats_idem hgm with ⟨db1, h1, h2⟩
  rw [SubmitPop.recalculateMemberStats_ok hgm, Except.ok.injEq, Prod.mk.injEq] at h1
  rw [← h1.1] at h2
  exact h2

theorem c5_witness :
    SubmitPop.getMember spdb2 0 = some spMember2 ∧
    (∃ db1,
      SubmitPop.recalculateMemberStats spdb2 0 = .ok (db1, SubmitPop.recalcStats spdb2 0) ∧
      (SubmitPop.recalcStats spdb2 0).totalSavings
        = SubmitPop.sumOver (SubmitPop.savingsContrib 0) spdb2.submissions ∧
      (SubmitPop.recalcStats spdb2 0).totalFines
        = SubmitPop.sumOver (SubmitPop.finesContrib 0) spdb2.submissions ∧
      (SubmitPop.recalcStats spdb2 0).verifiedCount
        = SubmitPop.sumOver (SubmitPop.statusContrib 0 Status.verified) spdb2.submissions ∧
      (SubmitPop.recalcStats spdb2 0).pendingCount
        = SubmitPop.sumOver (SubmitPop.statusContrib 0 Status.pending) spdb2.submissions ∧
      (SubmitPop.recalcStats spdb2 0).rejectedCount
        = SubmitPop.sumOver (SubmitPop.statusContrib 0 Status.rejected) spdb2.submissions ∧
      (SubmitPop.recalcStats spdb2 0).submissionCount
        = ((spdb2.submissions.filter (fun t => t.memberId = some 0)).length : Int) ∧
      (SubmitPop.recalcStats spdb2 0).qualifiesForInterest
        = decide ((SubmitPop.recalcStats spdb2 0).totalSavings
            ≥ SubmitPop.interestEligibilityMin) ∧
      db1.submissions = spdb2.submissions ∧
      SubmitPop.getMember db1 0
        = some (SubmitPop.overwriteStats (SubmitPop.recalcStats spdb2 0) spMember2) ∧
      SubmitPop.recalculateMemberStats db1 0
        = .ok (db1, SubmitPop.recalcStats spdb2 0)) :=
  ⟨rfl, c5_recalculate_authoritative (rfl : SubmitPop.getMember spdb2 0 = some spMember2)⟩

/-- C6 (amended): the bulk recalculation walks a snapshot of all members
sequentially, counting one per member recalculated, and when every member
succeeds it returns the member count; but a failure while recalculating one
member is not caught per member - the loop stops at the failing member,
leaving the rest unprocessed, and the enclosing catch rethrows the error to
the caller (no log-and-continue). -/
theorem c6_bulk_recalculation (db : SubmitPop.DB) :
    (∃ db1, SubmitPop.recalculateAllMemberStats db = .ok (db1, db.members.length)) ∧
    (∀ (step : SubmitPop.DB → Nat → Except String (SubmitPop.DB × SubmitPop.Stats))
       (db0 : SubmitPop.DB) (mid : Nat) (rest : List Nat) (count : Nat) (e : String),
      step db0 mid = .error e →
      SubmitPop.recalcLoop step db0 (mid :: rest) count = .error e) :=
  ⟨SubmitPop.recalculateAllMemberStats_ok db,
   fun step db0 mid rest count e h =>
     SubmitPop.recalcLoop_propagates step db0 mid rest count e h⟩

theorem c6_witness :
    (∃ db1, SubmitPop.recalculateAllMemberStats spdb2 = .ok (db1, spdb2.members.length)) ∧
    spdb2.members.length = 1 ∧
    SubmitPop.recalcLoop (fun _ _ => .error "store unavailable") spdb2 [0, 1] 0
      = .error "store unavailable" := by
  have h := c6_bulk_recalculation spdb2
  exact ⟨h.1, rfl, h.2 (fun _ _ => .error "store unavailable") spdb2 0 [1] 0
    "store unavailable" rfl⟩

/-- C7 (amended): in the dual-store engine, approving a pending submission
with a positive fineAmount adds the fine to the interest-pool bucket keyed by
the year extracted from the payment-period label - the first 4-digit token,
with the current calendar year used only when no such token exists - and
leaves every other bucket unchanged; when a 4-digit token is present the
bucket is independent of the year in which the approval occurs.  The
single-store variant instead parses the second space-separated word of the
label and falls back to the approval-time year whenever the label contains no
space, even when a 4-digit token is present (see the counterexample). -/
theorem c7_fine_routing {s : Part006.Settings} {nowYear : Int} {db : Part006.DB}
    {sid : Nat} {sub : Part006.Submission}
    (hsub : Part006.getSubmission db sid = some sub)
    (hpend : sub.status = Status.pending)
    (hfine : sub.fineAmount > 0) :
    ∃ db1, Part006.approveSubmission s nowYear db sid = .ok db1 ∧
      (assocGet db1.pool
          (toString (Part006.extractYearFromMonth nowYear sub.paymentMonth))).getD 0
        = (assocGet db.pool
            (toString (Part006.extractYearFromMonth nowYear sub.paymentMonth))).getD 0
          + sub.fineAmount ∧
      (∀ k, k ≠ toString (Part006.extractYearFromMonth nowYear sub.paymentMonth) →
        assocGet db1.pool k = assocGet db.pool k) ∧
      (∀ ds, Part006.firstFourDigits sub.paymentMonth.data = some ds →
        ∀ y : Int, Part006.extractYearFromMonth y sub.paymentMonth = (digitsToNat ds : Int)) ∧
      (Part006.firstFourDigits sub.paymentMonth.data = none →
        Part006.extractYearFromMonth nowYear sub.paymentMonth = nowYear) := by
  have hok : ∃ db1, Part006.approveSubmission s nowYear db sid = .ok db1 := by
    simp only [Part006.approveSubmission, hsub]
    rw [if_neg (by simp [hpend])]
    exact ⟨_, rfl⟩
  rcases hok with ⟨db1, hok⟩
  rcases Part006.approveSubmission_ok hok with ⟨sub', hsub', -, -, hpool⟩
  have hsubeq : sub' = sub := by
    rw [hsub] at hsub'
    exact ((Option.some.injEq _ _).mp hsub').symm
  subst hsubeq
  refine ⟨db1, hok, ?_, ?_, ?_, ?_⟩
  · rw [hpool, if_pos hfine]
    exact poolAdd_assocGet_self db.pool _ sub'.fineAmount
  · intro k hk
    rw [hpool, if_pos hfine]
    exact poolAdd_assocGet_ne db.pool _ k sub'.fineAmount hk
  · intro ds hds y
    have hne : sub'.paymentMonth ≠ "" := by
      intro he
      rw [he] at hds
      simp [Part006.firstFourDigits] at hds
    simp only [Part006.extractYearFromMonth]
    rw [if_neg hne, hds]
  · intro hnone
    simp only [Part006.extractYearFromMonth]
    by_cases he : sub'.paymentMonth = ""
    · rw [if_pos he]
    · rw [if_neg he, hnone]

theorem p6Lstep2 :
    Part006.submitPOP lateSettings p6Ldb1 p6LsubData = .ok (p6Ldb2, 0) := rfl

theorem c7_witness :
    Part006.getSubmission p6Ldb2 0 = some p6Lsub ∧ p6Lsub.status = Status.pending ∧
    p6Lsub.fineAmount > 0 ∧ p6Lsub.paymentMonth = "December 2024" ∧
    (∃ db1, Part006.approveSubmission lateSettings 2026 p6Ldb2 0 = .ok db1 ∧
      (assocGet db1.pool
          (toString (Part006.extractYearFromMonth 2026 p6Lsub.paymentMonth))).getD 0
        = (assocGet p6Ldb2.pool
            (toString (Part006.extractYearFromMonth 2026 p6Lsub.paymentMonth))).getD 0
          + p6Lsub.fineAmount ∧
      (∀ k, k ≠ toString (Part006.extractYearFromMonth 2026 p6Lsub.paymentMonth) →
        assocGet db1.pool k = assocGet p6Ldb2.pool k) ∧
      (∀ ds, Part006.firstFourDigits p6Lsub.paymentMonth.data = some ds →
        ∀ y : Int, Part006.extractYearFromMonth y p6Lsub.paymentMonth
          = (digitsToNat ds : Int)) ∧
      (Part006.firstFourDigits p6Lsub.paymentMonth.data = none →
        Part006.extractYearFromMonth 2026 p6Lsub.paymentMonth = 2026)) := by
  have h1 : Part006.getSubmission p6Ldb2 0 = some p6Lsub := rfl
  have h2 : p6Lsub.status = Status.pending := by decide
  have h3 : p6Lsub.fineAmount > 0 := by decide
  exact ⟨h1, h2, h3, by decide, c7_fine_routing h1 h2 h3⟩

/-- C7 counterexample: the single-store variant approves a late submission
whose payment-period label is the bare 4-digit token "2024" during 2025; the
fine lands in bucket "2025" (the approval-time year) and bucket "2024" stays
absent, although a 4-digit token is present in the label. -/
theorem c7_counterexample :
    (SubmitPop.getSubmission spdb2 0).map SubmitPop.Submission.paymentMonth
      = some "2024" ∧
    (SubmitPop.getSubmission spdb2 0).map SubmitPop.Submission.fineAmount = some 50 ∧
    Part006.firstFourDigits ("2024".data) = some ['2', '0', '2', '4'] ∧
    SubmitPop.approveSubmission 2025 spdb2 0 (some 0) = .ok spdb3 ∧
    assocGet spdb3.pool "2024" = none ∧
    assocGet spdb3.pool "2025" = some 50 := by
  refine ⟨by decide, by decide, by decide, rfl, rfl, rfl⟩

theorem p6stepRej :
    Part006.rejectSubmission p6db2 0 "blurry proof" = .ok p6dbRej := rfl

theorem spStep1 :
    SubmitPop.registerMember SubmitPop.DB.empty spReg = .ok (spdb1, 0) := rfl

theorem spStep2 : SubmitPop.submitPOP spdb1 spSubData = .ok (spdb2, 0) := rfl

theorem spStepRej :
    SubmitPop.rejectSubmission spdb2 0 "blurry proof" = .ok spdbRej := rfl

theorem spStepApproveNone :
    SubmitPop.approveSubmission 2025 spdb2 0 none = .ok spdb3n := rfl

def spSub2 : SubmitPop.Submission :=
  (SubmitPop.getSubmission spdb2 0).getD
    { id := 0, memberId := none, name := "", phone := "", amount := 0, fineAmount := 0,
      isLate := false, paymentMonth := "", paymentDay := 0, status := Status.pending,
      rejectionReason := none }

/-- C8 (amended): in both variants the submission's memberId is resolved by
phone lookup at submit time, and reject leaves the stored (id, memberId)
pairs of all submissions unchanged; in the dual-store engine approve does
too.  The single-store approve, however, overwrites the stored memberId with
its caller-supplied argument (default null), so the stored link survives
approval only when the caller passes the same id back (see the
counterexample, where approving with the default erases the link). -/
theorem c8_member_link :
    (∀ (s : Part006.Settings) (db : Part006.DB) (d : Part006.SubmitData)
        (db1 : Part006.DB) (sid : Nat),
      Part006.submitPOP s db d = .ok (db1, sid) →
      ∃ sub, db1.submissions = db.submissions ++ [sub] ∧
        sub.memberId
          = (Part006.getMemberByPhone db (stripSpacesDashes d.phone)).map Part006.Member.id) ∧
    (∀ (s : Part006.Settings) (nowYear : Int) (db : Part006.DB) (sid : Nat)
        (db1 : Part006.DB),
      Part006.approveSubmission s nowYear db sid = .ok db1 →
      db1.submissions.map (fun t => (t.id, t.memberId))
        = db.submissions.map (fun t => (t.id, t.memberId))) ∧
    (∀ (db : Part006.DB) (sid : Nat) (reason : String) (db1 : Part006.DB),
      Part006.rejectSubmission db sid reason = .ok db1 →
      db1.submissions.map (fun t => (t.id, t.memberId))
        = db.submissions.map (fun t => (t.id, t.memberId))) ∧
    (∀ (db : SubmitPop.DB) (d : SubmitPop.SubmitData) (db1 : SubmitPop.DB) (sid : Nat),
      SubmitPop.submitPOP db d = .ok (db1, sid) →
      ∃ sub, db1.submissions = db.submissions ++ [sub] ∧
        sub.memberId
          = (SubmitPop.getMemberByPhone db (stripSpacesDashes d.phone)).map SubmitPop.Member.id) ∧
    (∀ (db : SubmitPop.DB) (sid : Nat) (reason : String) (db1 : SubmitPop.DB),
      SubmitPop.rejectSubmission db sid reason = .ok db1 →
      db1.submissions.map (fun t => (t.id, t.memberId))
        = db.submissions.map (fun t => (t.id, t.memberId))) ∧
    (∀ (nowYear : Int) (db : SubmitPop.DB) (sid : Nat) (arg : Option Nat)
        (db1 : SubmitPop.DB) (sub : SubmitPop.Submission),
      SubmitPop.getSubmission db sid = some sub →
      SubmitPop.approveSubmission nowYear db sid arg = .ok db1 →
      SubmitPop.getSubmission db1 sid = some (SubmitPop.markVerifiedAs arg sub)) := by
  refine ⟨?_, ?_, ?_, ?_, ?_, ?_⟩
  · intro s db d db1 sid h
    obtain ⟨sub, h1, -, h3⟩ := Part006.submitPOP_ok h
    exact ⟨sub, h1, h3⟩
  · intro s nowYear db sid db1 h
    obtain ⟨sub, -, -, hsubs, -⟩ := Part006.approveSubmission_ok h
    rw [hsubs]
    simp only [Part006.updateSubRec]
    exact map_update_map_proj Part006.Submission.id
      (fun t => (t.id, t.memberId)) sid Part006.markVerified (fun x => rfl) db.submissions
  · intro db sid reason db1 h
    obtain ⟨sub, -, -, hsubs, -⟩ := Part006.rejectSubmission_ok h
    rw [hsubs]
    simp only [Part006.updateSubRec]
    exact map_update_map_proj Part006.Submission.id
      (fun t => (t.id, t.memberId)) sid (Part006.markRejected reason) (fun x => rfl)
      db.submissions
  · intro db d db1 sid h
    obtain ⟨sub, h1, -, h3⟩ := SubmitPop.submitPOPSingle_ok h
    exact ⟨sub, h1, h3⟩
  · intro db sid reason db1 h
    obtain ⟨sub, -, hsubs⟩ := SubmitPop.rejectSubmissionSingle_ok h
    rw [hsubs]
    simp only [SubmitPop.updateSubRec]
    exact map_update_map_proj SubmitPop.Submission.id
      (fun t => (t.id, t.memberId)) sid (SubmitPop.markRejected reason) (fun x => rfl)
      db.submissions
  · intro nowYear db sid arg db1 sub hsub h
    obtain ⟨sub', hsub', hsubs, -⟩ := SubmitPop.approveSubmissionSingle_ok h
    have hse : sub' = sub := by
      rw [hsub] at hsub'
      exact ((Option.some.injEq _ _).mp hsub').symm
    subst hse
    show db1.submissions.find? (fun t => t.id = sid) = _
    rw [hsubs]
    simp only [SubmitPop.updateSubRec]
    rw [find?_map_update SubmitPop.Submission.id sid (SubmitPop.markVerifiedAs arg)
          (fun x => rfl) db.submissions]
    have : db.submissions.find? (fun t => t.id = sid) = some sub' := hsub'
    rw [this]
    rfl

theorem c8_witness :
    (∃ sub, p6db2.submissions = p6db1.submissions ++ [sub] ∧
      sub.memberId
        = (Part006.getMemberByPhone p6db1 (stripSpacesDashes p6subData.phone)).map
            Part006.Member.id) ∧
    p6db3.submissions.map (fun t => (t.id, t.memberId))
      = p6db2.submissions.map (fun t => (t.id, t.memberId)) ∧
    p6dbRej.submissions.map (fun t => (t.id, t.memberId))
      = p6db2.submissions.map (fun t => (t.id, t.memberId)) ∧
    (∃ sub, spdb2.submissions = spdb1.submissions ++ [sub] ∧
      sub.memberId
        = (SubmitPop.getMemberByPhone spdb1 (stripSpacesDashes spSubData.phone)).map
            SubmitPop.Member.id) ∧
    spdbRej.submissions.map (fun t => (t.id, t.memberId))
      = spdb2.submissions.map (fun t => (t.id, t.memberId)) ∧
    SubmitPop.getSubmission spdb3n 0 = some (SubmitPop.markVerifiedAs none spSub2) := by
  obtain ⟨ha, hb, hc, hd, he, hf⟩ := c8_member_link
  exact ⟨ha _ _ _ _ _ p6step2, hb _ _ _ _ _ p6step3, hc _ _ _ _ p6stepRej,
         hd _ _ _ _ spStep2, he _ _ _ _ spStepRej,
         hf 2025 spdb2 0 none spdb3n spSub2 rfl spStepApproveNone⟩

/-- C8 counterexample: in the single-store variant the submission stored at
id 0 links to member 0 after submit, yet approving it with the default null
member argument overwrites the stored memberId with null - the link is
changed by a later operation. -/
theorem c8_counterexample :
    (SubmitPop.getSubmission spdb2 0).map SubmitPop.Submission.memberId
      = some (some 0) ∧
    SubmitPop.approveSubmission 2025 spdb2 0 none = .ok spdb3n ∧
    (SubmitPop.getSubmission spdb3n 0).map SubmitPop.Submission.memberId
      = some none := by
  exact ⟨by decide, rfl, by decide⟩

/-- A fresh OTP record as sendPasswordResetOTP stores it, with the attempt
counter exposed. -/
def mkOtpRec (otp : String) (expiry n : Int) : SMSNew.OtpRec :=
  { otp := otp, expiresAt := expiry, used := false, attempts := n }

/-- C9 (amended): the OTP machine of the Firebase SMS module behaves exactly
as claimed: verification fails on a missing record, fails on a used record,
fails and deletes the record past its expiry or once attempts reach 3,
increments attempts on a mismatch, marks the record used on a match, and an
issued code verified wrongly three times is exhausted - the fourth call
fails and deletes the record even with the correct code.  The legacy sms.js
module violates the claim as stated: it keeps no attempt counter and never
deletes, so after three wrong tries the correct code still verifies (see the
counterexample). -/
theorem c9_otp_state_machine :
    (∀ (now : Int) (st : SMSNew.OtpStore) (phone otp k : String),
      SMSNew.formatPhoneNumber phone = some k → assocGet st k = none →
      SMSNew.verifyOTP now st phone otp = (false, st)) ∧
    (∀ (now : Int) (st : SMSNew.OtpStore) (phone otp k : String) (r : SMSNew.OtpRec),
      SMSNew.formatPhoneNumber phone = some k → assocGet st k = some r →
      r.used = true → SMSNew.verifyOTP now st phone otp = (false, st)) ∧
    (∀ (now : Int) (st : SMSNew.OtpStore) (phone otp k : String) (r : SMSNew.OtpRec),
      SMSNew.formatPhoneNumber phone = some k → assocGet st k = some r →
      r.used = false → now > r.expiresAt →
      SMSNew.verifyOTP now st phone otp = (false, assocDel st k)) ∧
    (∀ (now : Int) (st : SMSNew.OtpStore) (phone otp k : String) (r : SMSNew.OtpRec),
      SMSNew.formatPhoneNumber phone = some k → assocGet st k = some r →
      r.used = false → ¬ now > r.expiresAt → r.attempts ≥ 3 →
      SMSNew.verifyOTP now st phone otp = (false, assocDel st k)) ∧
    (∀ (now : Int) (st : SMSNew.OtpStore) (phone otp k : String) (r : SMSNew.OtpRec),
      SMSNew.formatPhoneNumber phone = some k → assocGet st k = some r →
      r.used = false → ¬ now > r.expiresAt → ¬ r.attempts ≥ 3 → r.otp ≠ otp →
      SMSNew.verifyOTP now st phone otp
        = (false, assocSet st k { r with attempts := r.attempts + 1 })) ∧
    (∀ (now : Int) (st : SMSNew.OtpStore) (phone otp k : String) (r : SMSNew.OtpRec),
      SMSNew.formatPhoneNumber phone = some k → assocGet st k = some r →
      r.used = false → ¬ now > r.expiresAt → ¬ r.attempts ≥ 3 → r.otp = otp →
      SMSNew.verifyOTP now st phone otp = (true, assocSet st k { r with used := true })) ∧
    (∀ (tIssue t1 t2 t3 t4 : Int) (st : SMSNew.OtpStore) (phone otp wrong k : String),
      SMSNew.formatPhoneNumber phone = some k → wrong ≠ otp →
      t1 ≤ tIssue + 600000 → t2 ≤ tIssue + 600000 → t3 ≤ tIssue + 600000 →
      t4 ≤ tIssue + 600000 →
      SMSNew.exhaustScenario tIssue t1 t2 t3 t4 st phone otp wrong
        = (false, assocDel (assocSet st k (mkOtpRec otp (tIssue + 600000) 3)) k) ∧
      assocGet (SMSNew.exhaustScenario tIssue t1 t2 t3 t4 st phone otp wrong).2 k
        = none) := by
  have hnone : ∀ (now : Int) (st : SMSNew.OtpStore) (phone otp k : String),
      SMSNew.formatPhoneNumber phone = some k → assocGet st k = none →
      SMSNew.verifyOTP now st phone otp = (false, st) := by
    intro now st phone otp k hk hg
    simp only [SMSNew.verifyOTP, hk, hg]
  have hused : ∀ (now : Int) (st : SMSNew.OtpStore) (phone otp k : String)
      (r : SMSNew.OtpRec), SMSNew.formatPhoneNumber phone = some k →
      assocGet st k = some r → r.used = true →
      SMSNew.verifyOTP now st phone otp = (false, st) := by
    intro now st phone otp k r hk hg hu
    simp only [SMSNew.verifyOTP, hk, hg]
    rw [if_pos hu]
  have hexp : ∀ (now : Int) (st : SMSNew.OtpStore) (phone otp k : String)
      (r : SMSNew.OtpRec), SMSNew.formatPhoneNumber phone = some k →
      assocGet st k = some r → r.used = false → now > r.expiresAt →
      SMSNew.verifyOTP now st phone otp = (false, assocDel st k) := by
    intro now st phone otp k r hk hg hu he
    simp only [SMSNew.verifyOTP, hk, hg]
    rw [if_neg (by simp [hu]), if_pos he]
  have hexh : ∀ (now : Int) (st : SMSNew.OtpStore) (phone otp k : String)
      (r : SMSNew.OtpRec), SMSNew.formatPhoneNumber phone = some k →
      assocGet st k = some r → r.used = false → ¬ now > r.expiresAt →
      r.attempts ≥ 3 → SMSNew.verifyOTP now st phone otp = (false, assocDel st k) := by
    intro now st phone otp k r hk hg hu he ha
    simp only [SMSNew.verifyOTP, hk, hg]
    rw [if_neg (by simp [hu]), if_neg he, if_pos ha]
  have hmiss : ∀ (now : Int) (st : SMSNew.OtpStore) (phone otp k : String)
      (r : SMSNew.OtpRec), SMSNew.formatPhoneNumber phone = some k →
      assocGet st k = some r → r.used = false → ¬ now > r.expiresAt →
      ¬ r.attempts ≥ 3 → r.otp ≠ otp →
      SMSNew.verifyOTP now st phone otp
        = (false, assocSet st k { r with attempts := r.attempts + 1 }) := by
    intro now st phone otp k r hk hg hu he ha hne
    simp only [SMSNew.verifyOTP, hk, hg]
    rw [if_neg (by simp [hu]), if_neg he, if_neg ha, if_pos hne]
  have hmatch : ∀ (now : Int) (st : SMSNew.OtpStore) (phone otp k : String)
      (r : SMSNew.OtpRec), SMSNew.formatPhoneNumber phone = some k →
      assocGet st k = some r → r.used = false → ¬ now > r.expiresAt →
      ¬ r.attempts ≥ 3 → r.otp = otp →
      SMSNew.verifyOTP now st phone otp = (true, assocSet st k { r with used := true }) := by
    intro now st phone otp k r hk hg hu he ha heq
    simp only [SMSNew.verifyOTP, hk, hg]
    rw [if_neg (by simp [hu]), if_neg he, if_neg ha, if_neg (by simp [heq])]
  refine ⟨hnone, hused, hexp, hexh, hmiss, hmatch, ?_⟩
  intro tIssue t1 t2 t3 t4 st phone otp wrong k hk hw h1 h2 h3 h4
  have e0 : (SMSNew.sendPasswordResetOTP tIssue st phone otp).2
      = assocSet st k (mkOtpRec otp (tIssue + 600000) 0) := by
    simp only [SMSNew.sendPasswordResetOTP, hk, mkOtpRec]
  have step : ∀ (t n : Int), t ≤ tIssue + 600000 → ¬ n ≥ 3 →
      (SMSNew.verifyOTP t (assocSet st k (mkOtpRec otp (tIssue + 600000) n))
          phone wrong).2
        = assocSet st k (mkOtpRec otp (tIssue + 600000) (n + 1)) := by
    intro t n ht hn
    rw [hmiss t _ phone wrong k _ hk (assocSet_get_self st k _) rfl
          (not_lt.mpr ht) hn (Ne.symm hw)]
    rw [assocSet_assocSet]
    rfl
  have hrun : SMSNew.exhaustScenario tIssue t1 t2 t3 t4 st phone otp wrong
      = (false, assocDel (assocSet st k (mkOtpRec otp (tIssue + 600000) 3)) k) := by
    simp only [SMSNew.exhaustScenario, e0]
    rw [step t1 0 h1 (by omega), step t2 (0 + 1) h2 (by omega),
        step t3 (0 + 1 + 1) h3 (by omega),
        hexh t4 _ phone otp k _ hk (assocSet_get_self st k _) rfl (not_lt.mpr h4)
          (by norm_num [mkOtpRec])]
    norm_num
  refine ⟨hrun, ?_⟩
  rw [hrun]
  exact assocDel_get_self _ k

def otpRecA : SMSNew.OtpRec :=
  { otp := "111111", expiresAt := 1000, used := false, attempts := 1 }

def otpStA : SMSNew.OtpStore := [("27731234567", otpRecA)]

def otpRecU : SMSNew.OtpRec :=
  { otp := "111111", expiresAt := 1000, used := true, attempts := 0 }

def otpStU : SMSNew.OtpStore := [("27731234567", otpRecU)]

def otpRecX : SMSNew.OtpRec :=
  { otp := "111111", expiresAt := 1000, used := false, attempts := 3 }

def otpStX : SMSNew.OtpStore := [("27731234567", otpRecX)]

theorem c9_witness :
    SMSNew.verifyOTP 5 [] "0731234567" "123456" = (false, []) ∧
    SMSNew.verifyOTP 5 otpStU "0731234567" "111111" = (false, otpStU) ∧
    SMSNew.verifyOTP 2000 otpStA "0731234567" "111111"
      = (false, assocDel otpStA "27731234567") ∧
    SMSNew.verifyOTP 500 otpStX "0731234567" "111111"
      = (false, assocDel otpStX "27731234567") ∧
    SMSNew.verifyOTP 500 otpStA "0731234567" "222222"
      = (false, assocSet otpStA "27731234567"
          { otpRecA with attempts := otpRecA.attempts + 1 }) ∧
    SMSNew.verifyOTP 500 otpStA "0731234567" "111111"
      = (true, assocSet otpStA "27731234567" { otpRecA with used := true }) ∧
    (SMSNew.exhaustScenario 0 1 2 3 4 [] "0731234567" "654321" "000000"
      = (false, assocDel (assocSet [] "27731234567" (mkOtpRec "654321" (0 + 600000) 3))
          "27731234567") ∧
     assocGet (SMSNew.exhaustScenario 0 1 2 3 4 [] "0731234567" "654321" "000000").2
       "27731234567" = none) := by
  obtain ⟨h1, h2, h3, h4, h5, h6, h7⟩ := c9_otp_state_machine
  exact ⟨h1 5 [] "0731234567" "123456" "27731234567" (by decide) rfl,
         h2 5 otpStU "0731234567" "111111" "27731234567" otpRecU (by decide) rfl rfl,
         h3 2000 otpStA "0731234567" "111111" "27731234567" otpRecA (by decide) rfl rfl
           (by decide),
         h4 500 otpStX "0731234567" "111111" "27731234567" otpRecX (by decide) rfl rfl
           (by decide) (by decide),
         h5 500 otpStA "0731234567" "222222" "27731234567" otpRecA (by decide) rfl rfl
           (by decide) (by decide) (by decide),
         h6 500 otpStA "0731234567" "111111" "27731234567" otpRecA (by decide) rfl rfl
           (by decide) (by decide) (by decide),
         h7 0 1 2 3 4 [] "0731234567" "654321" "000000" "27731234567" (by decide)
           (by decide) (by decide) (by decide) (by decide) (by decide)⟩

def oldStI : SMSOld.OtpStore := (SMSOld.sendPasswordResetOTP 0 [] "0731234567" "654321").2

def oldSt1 : SMSOld.OtpStore := (SMSOld.verifyOTP 1 oldStI "0731234567" "000000").2

def oldSt2 : SMSOld.OtpStore := (SMSOld.verifyOTP 2 oldSt1 "0731234567" "000000").2

def oldSt3 : SMSOld.OtpStore := (SMSOld.verifyOTP 3 oldSt2 "0731234567" "000000").2

/-- C9 counterexample: in the legacy sms.js module an OTP issued at time 0
and tried wrongly at times 1, 2 and 3 still verifies at time 4 with the
correct code, and the record survives (marked used) instead of being deleted
as exhausted. -/
theorem c9_counterexample :
    (SMSOld.verifyOTP 1 oldStI "0731234567" "000000").1 = false ∧
    (SMSOld.verifyOTP 2 oldSt1 "0731234567" "000000").1 = false ∧
    (SMSOld.verifyOTP 3 oldSt2 "0731234567" "000000").1 = false ∧
    (SMSOld.verifyOTP 4 oldSt3 "0731234567" "654321").1 = true ∧
    assocGet (SMSOld.verifyOTP 4 oldSt3 "0731234567" "654321").2 "+27731234567"
      = some { otp := "654321", expiresAt := 600000, used := true } := by
  refine ⟨?_, ?_, ?_, ?_, ?_⟩ <;> decide

def regDataB : Part006.RegData :=
  { name := "Sipho K", phone := "0829998887", idNumber := "9203035800084",
    password := "sunrise299" }

def p6dbB : Part006.DB :=
  match Part006.registerMember p6db1 regDataB with
  | .ok (db, _) => db
  | .error _ => Part006.DB.empty

theorem p6stepB : Part006.registerMember p6db1 regDataB = .ok (p6dbB, 1) := rfl

def p6memA : Part006.Member :=
  { id := 0, phone := "0731234567", idNumber := "8001015009087",
    passwordHash := Part006.hashPassword "sunrise299", status := "active",
    totalSavings := 0, totalFines := 0, submissionCount := 0, verifiedCount := 0,
    pendingCount := 0, rejectedCount := 0, qualifiesForInterest := false,
    lastPaymentMonth := none, consecutiveMonths := 0, skippedMonths := 0 }

def p6memB : Part006.Member :=
  { id := 1, phone := "0829998887", idNumber := "9203035800084",
    passwordHash := Part006.hashPassword "sunrise299", status := "active",
    totalSavings := 0, totalFines := 0, submissionCount := 0, verifiedCount := 0,
    pendingCount := 0, rejectedCount := 0, qualifiesForInterest := false,
    lastPaymentMonth := none, consecutiveMonths := 0, skippedMonths := 0 }

/-- C10: in the dual-store engine hashPassword is the SHA-256 hex digest of
the password alone - no salt, no per-member input - so registration stores
exactly that digest on the new member record, two registrations with the same
password store identical digests, and verifyMemberLogin succeeds exactly when
the digest of the supplied password equals the digest stored on the member
found by the supplied phone. -/
theorem c10_password_hashing :
    (∀ (db : Part006.DB) (d : Part006.RegData) (db1 : Part006.DB) (mid : Nat),
      Part006.registerMember db d = .ok (db1, mid) →
      ∃ m : Part006.Member, db1.members = db.members ++ [m] ∧
        m.passwordHash = Part006.hashPassword d.password) ∧
    (∀ (db db' : Part006.DB) (d d' : Part006.RegData) (db1 db1' : Part006.DB)
        (mid mid' : Nat) (m m' : Part006.Member),
      Part006.registerMember db d = .ok (db1, mid) →
      Part006.registerMember db' d' = .ok (db1', mid') →
      d.password = d'.password →
      db1.members = db.members ++ [m] → db1'.members = db'.members ++ [m'] →
      m.passwordHash = m'.passwordHash) ∧
    (∀ (db : Part006.DB) (phone password : String) (m : Part006.Member),
      Part006.verifyMemberLogin db phone password = some m ↔
        (Part006.getMemberByPhone db phone = some m ∧
         m.passwordHash = Part006.hashPassword password)) := by
  have happ : ∀ (db : Part006.DB) (d : Part006.RegData) (db1 : Part006.DB) (mid : Nat),
      Part006.registerMember db d = .ok (db1, mid) →
      ∃ m : Part006.Member, db1.members = db.members ++ [m] ∧
        m.passwordHash = Part006.hashPassword d.password := by
    intro db d db1 mid h
    obtain ⟨-, m, -, -, -, -, -, -, -, hph, -, hdb⟩ := Part006.registerMember_ok h
    subst hdb
    exact ⟨m, rfl, hph⟩
  refine ⟨happ, ?_, ?_⟩
  · intro db db' d d' db1 db1' mid mid' m m' h h' hpw hm hm'
    obtain ⟨m0, hdb0, hph0⟩ := happ _ _ _ _ h
    obtain ⟨m0', hdb0', hph0'⟩ := happ _ _ _ _ h'
    have e : m = m0 := by
      have := hm.symm.trans hdb0
      simpa using List.append_cancel_left this
    have e' : m' = m0' := by
      have := hm'.symm.trans hdb0'
      simpa using List.append_cancel_left this
    rw [e, e', hph0, hph0', hpw]
  · intro db phone password m
    exact Part006.verifyMemberLogin_iff db phone password m

theorem c10_witness :
    Part006.registerMember Part006.DB.empty regDataA = .ok (p6db1, 0) ∧
    Part006.registerMember p6db1 regDataB = .ok (p6dbB, 1) ∧
    regDataA.password = regDataB.password ∧
    p6db1.members = Part006.DB.empty.members ++ [p6memA] ∧
    p6dbB.members = p6db1.members ++ [p6memB] ∧
    p6memA.passwordHash = p6memB.passwordHash ∧
    (Part006.verifyMemberLogin p6db1 "0731234567" "sunrise299" = some p6memA ↔
      (Part006.getMemberByPhone p6db1 "0731234567" = some p6memA ∧
       p6memA.passwordHash = Part006.hashPassword "sunrise299")) := by
  obtain ⟨h1, h2, h3⟩ := c10_password_hashing
  have hA : p6db1.members = Part006.DB.empty.members ++ [p6memA] := rfl
  have hB : p6dbB.members = p6db1.members ++ [p6memB] := rfl
  exact ⟨p6step1, p6stepB, rfl, hA, hB,
         h2 Part006.DB.empty p6db1 regDataA regDataB p6db1 p6dbB 0 1 p6memA p6memB
           p6step1 p6stepB rfl hA hB,
         h3 p6db1 "0731234567" "sunrise299" p6memA⟩

/-- C6 counterexample: in recalculateAllMemberStats a failure while
recalculating one member is rethrown after logging, so the loop aborts and
the error raises to the caller instead of continuing with the remaining
members: a step that fails on the first member makes the whole loop return
that error. -/
theorem c6_counterexample :
    SubmitPop.recalcLoop (fun _ _ => .error "Firestore write failed") spdb1 [0, 1, 2] 0
      = .error "Firestore write failed" := rfl
